import Mathlib

set_option maxHeartbeats 1600000

/-!
Shallow embedding of the asgi-lifespan repository.

The repository has two source files implementing a `LifespanMiddleware`:
`src/asgi_lifespan_middleware/_middleware.py` (the complete variant, embedded
below as `call`) and `src/asgi_lifespan/_middleware.py` (the older variant,
embedded as `callOld`).  The middleware's `__call__(scope, receive, send)`
coroutine is single threaded: the only suspension points are channel
receives and sends, so the wrapped ASGI app is modelled as a finite list of
channel actions (`AppAction`) followed by an outcome (return or raise), and
the whole run becomes a pure state-passing function.  The caller supplied
lifespan context manager is modelled by whether its enter and its exit raise.
Every externally observable step of a run is recorded in an event trace.
-/

/-- The scope type string checked at the top of `__call__`. -/
def lifespanType : String := "lifespan"

/-- ASGI message type `lifespan.startup.complete`. -/
def startupComplete : String := "lifespan.startup.complete"

/-- ASGI message type `lifespan.startup.failed`. -/
def startupFailed : String := "lifespan.startup.failed"

/-- ASGI message type `lifespan.shutdown.complete`. -/
def shutdownComplete : String := "lifespan.shutdown.complete"

/-- ASGI message type `lifespan.shutdown.failed`. -/
def shutdownFailed : String := "lifespan.shutdown.failed"

/-- An ASGI lifespan message: a `type` key and an optional `message` payload. -/
structure Message where
  type : String
  message : Option String
  deriving DecidableEq, Repr

/-- A Python exception value.  `isException` is true for subclasses of
`Exception` and false for other `BaseException`s; the old variant's
`except Exception` clause distinguishes them. -/
structure Exc where
  text : String
  isException : Bool
  deriving DecidableEq, Repr

/-- Observable events of one run of `LifespanMiddleware.__call__`. -/
inductive Ev where
  /-- `self._lifespan(self._app)` was evaluated (line 57). -/
  | factoryCall : Ev
  /-- the lifespan context manager's enter returned (resource setup done). -/
  | enterLifespan : Ev
  /-- the lifespan context manager's exit returned (resource teardown done). -/
  | exitLifespan : Ev
  /-- the lifespan context manager's exit raised. -/
  | exitLifespanRaised : Ev
  /-- `await self._app(...)` was invoked. -/
  | appCall : Ev
  /-- the wrapped app returned normally. -/
  | appReturn : Ev
  /-- the wrapped app raised. -/
  | appRaised : Exc → Ev
  /-- the app handed a message of this type to its send endpoint. -/
  | wrappedSend : String → Ev
  /-- a message of this type was consumed from the inbound channel. -/
  | recv : String → Ev
  /-- a message was delivered to the real outbound `send` channel. -/
  | out : Message → Ev
  deriving DecidableEq, Repr

/-- One channel action performed by the wrapped app while it runs. -/
inductive AppAction where
  | recv : AppAction
  | send : Message → AppAction
  deriving DecidableEq, Repr

/-- How the wrapped app's coroutine ends. -/
inductive AppOutcome where
  | ret : AppOutcome
  | raise : Exc → AppOutcome
  deriving DecidableEq, Repr

/-- The wrapped ASGI app: its channel actions in order, then its outcome. -/
structure AppBehavior where
  actions : List AppAction
  outcome : AppOutcome
  deriving DecidableEq, Repr

/-- The caller supplied lifespan context manager: whether enter raises and
whether exit raises. -/
structure LifespanCM where
  enterFault : Option Exc
  exitFault : Option Exc
  deriving DecidableEq, Repr

/-- Mutable state of one run: the event trace so far, the `send_events` and
`rcv_events` ledgers, and the inbound messages not yet consumed. -/
structure RunState where
  trace : List Ev
  send_events : List String
  rcv_events : List String
  inbox : List Message
  deriving DecidableEq, Repr

/-- How `__call__` itself ends: returns, raises, or suspends forever on an
inbound receive for which the supervisor never produces a message. -/
inductive RunResult where
  | ok : RunResult
  | raised : Exc → RunResult
  | blocked : RunResult
  deriving DecidableEq, Repr

/-- Result of a run together with its final (or suspension point) state. -/
structure RunOutput where
  result : RunResult
  state : RunState
  deriving DecidableEq, Repr

/-- Fixed text that `traceback.format_exc()` puts before the description of
the exception being handled. -/
def tbHeader : String := "Traceback (most recent call last):\n"

/-- Model of `traceback.format_exc()`: a traceback header followed by the
text describing the exception. -/
def format_exc (e : Exc) : String := tbHeader ++ e.text

/-- The message `{"type": "lifespan.startup.complete"}` built at line 103. -/
def scMsg : Message := { type := startupComplete, message := none }

/-- The message `{"type": "lifespan.shutdown.complete"}` built at lines 55
and 107. -/
def shcMsg : Message := { type := shutdownComplete, message := none }

/-- The message sent by `cleanup` when an exception reaches it (lines 45-52):
`lifespan.shutdown.failed` if `lifespan.startup.complete` is in
`send_events`, else `lifespan.startup.failed`, with the traceback text. -/
def failedMsg (s : RunState) (e : Exc) : Message :=
  if startupComplete ∈ s.send_events then
    { type := shutdownFailed, message := some (format_exc e) }
  else
    { type := startupFailed, message := some (format_exc e) }

/-- Run the app's channel actions against `wrapped_rcv` / `wrapped_send`
(lines 28-39): a receive consumes the inbound channel and records the type in
`rcv_events`; a send records the type in `send_events` and forwards the
message to the real `send` unless its type is `lifespan.shutdown.complete`.
Returns the state and whether the app blocked on an exhausted inbound
channel. -/
def runActions : List AppAction → RunState → RunState × Bool
  | [], s => (s, false)
  | AppAction.recv :: rest, s =>
    match s.inbox with
    | [] => (s, true)
    | m :: tl =>
      runActions rest { s with inbox := tl,
                               rcv_events := s.rcv_events ++ [m.type],
                               trace := s.trace ++ [Ev.recv m.type] }
  | AppAction.send m :: rest, s =>
    let s1 : RunState := { s with send_events := s.send_events ++ [m.type],
                                  trace := s.trace ++ [Ev.wrappedSend m.type] }
    if m.type = shutdownComplete then runActions rest s1
    else runActions rest { s1 with trace := s1.trace ++ [Ev.out m] }

/-- Unwind the exit stack while exception `e` propagates (both context
managers are on the stack): the lifespan cm exits first (its own fault, if
any, replaces `e`), then `cleanup` sends the failure message for the current
exception and re-raises it (lines 45-53). -/
def unwindRaise (s : RunState) (ls : LifespanCM) (e : Exc) : RunOutput :=
  match ls.exitFault with
  | some e2 =>
    { result := RunResult.raised e2,
      state := { s with trace := s.trace ++ [Ev.exitLifespanRaised, Ev.out (failedMsg s e2)] } }
  | none =>
    { result := RunResult.raised e,
      state := { s with trace := s.trace ++ [Ev.exitLifespan, Ev.out (failedMsg s e)] } }

/-- Unwind the exit stack normally (reached through the `return` at line 98):
the lifespan cm exits, then `cleanup` resumes; with no exception it sends
`lifespan.shutdown.complete` (line 55); if the lifespan exit raised,
`cleanup` sends the failure message and re-raises.  The final send at line
107 is not reached because `__call__` returns. -/
def unwindNormal (s : RunState) (ls : LifespanCM) : RunOutput :=
  match ls.exitFault with
  | some e2 =>
    { result := RunResult.raised e2,
      state := { s with trace := s.trace ++ [Ev.exitLifespanRaised, Ev.out (failedMsg s e2)] } }
  | none =>
    { result := RunResult.ok,
      state := { s with trace := s.trace ++ [Ev.exitLifespan, Ev.out shcMsg] } }

/-- Fall off the bottom of the `async with` block: unwind normally (which
already makes `cleanup` send one `lifespan.shutdown.complete`, line 55) and
then, if no exception is propagating, execute the final
`await send({"type": "lifespan.shutdown.complete"})` at line 107. -/
def finishNormally (s : RunState) (ls : LifespanCM) : RunOutput :=
  match ls.exitFault with
  | some e2 =>
    { result := RunResult.raised e2,
      state := { s with trace := s.trace ++ [Ev.exitLifespanRaised, Ev.out (failedMsg s e2)] } }
  | none =>
    { result := RunResult.ok,
      state := { s with trace := s.trace ++ [Ev.exitLifespan, Ev.out shcMsg, Ev.out shcMsg] } }

/-- Lines 93-107 of `__call__`, after the app call finished without a
propagating exception: on `lifespan.startup.failed` in `send_events`,
`return` (normal unwind, no line 107); else if `lifespan.startup.complete`
is not in `send_events`, impersonate a participant (raw `receive()`, raw
`send` of `lifespan.startup.complete`, raw `receive()`, lines 102-105) and
fall through; else fall through to the bottom of the `async with`. -/
def afterApp (s : RunState) (ls : LifespanCM) : RunOutput :=
  if startupFailed ∈ s.send_events then unwindNormal s ls
  else if startupComplete ∈ s.send_events then finishNormally s ls
  else
    match s.inbox with
    | [] => { result := RunResult.blocked, state := s }
    | m1 :: rest =>
      let sA : RunState := { s with inbox := rest,
                                    trace := s.trace ++ [Ev.recv m1.type, Ev.out scMsg] }
      match rest with
      | [] => { result := RunResult.blocked, state := sA }
      | m2 :: rest2 =>
        finishNormally { sA with inbox := rest2,
                                 trace := sA.trace ++ [Ev.recv m2.type] } ls

/-- The `scope["type"] == "lifespan"` branch of
`LifespanMiddleware.__call__` in `src/asgi_lifespan_middleware/_middleware.py`
(lines 25-107).  The factory is called (line 57), `cleanup()` and the
lifespan cm are entered on the `AsyncExitStack` (lines 59-61; an enter fault
unwinds only `cleanup`, which sends `lifespan.startup.failed`), the app runs
with the wrapped channels (line 80), a propagating app exception is
re-raised only if the app had sent a failure message (lines 81-92), and the
run finishes through `afterApp`. -/
def lifespanCall (app : AppBehavior) (ls : LifespanCM) (inbox : List Message) : RunOutput :=
  let s0 : RunState := { trace := [Ev.factoryCall], send_events := [],
                         rcv_events := [], inbox := inbox }
  match ls.enterFault with
  | some e =>
    { result := RunResult.raised e,
      state := { s0 with trace := s0.trace ++ [Ev.out (failedMsg s0 e)] } }
  | none =>
    let s1 : RunState := { s0 with trace := s0.trace ++ [Ev.enterLifespan, Ev.appCall] }
    let res := runActions app.actions s1
    if res.2 then { result := RunResult.blocked, state := res.1 }
    else
      match app.outcome with
      | AppOutcome.raise e =>
        let s3 : RunState := { res.1 with trace := res.1.trace ++ [Ev.appRaised e] }
        if startupFailed ∈ s3.send_events ∨ shutdownFailed ∈ s3.send_events then
          unwindRaise s3 ls e
        else afterApp s3 ls
      | AppOutcome.ret =>
        afterApp { res.1 with trace := res.1.trace ++ [Ev.appReturn] } ls

/-- The `scope["type"] != "lifespan"` branch (lines 20-23 of either file):
the app is called once with the original `scope`, `receive` and `send`; a
receive consumes the inbound channel directly, every send goes directly to
the real outbound channel, nothing is recorded, and an app exception
propagates to the caller. -/
def runActionsDirect : List AppAction → RunState → RunState × Bool
  | [], s => (s, false)
  | AppAction.recv :: rest, s =>
    match s.inbox with
    | [] => (s, true)
    | m :: tl =>
      runActionsDirect rest { s with inbox := tl, trace := s.trace ++ [Ev.recv m.type] }
  | AppAction.send m :: rest, s =>
    runActionsDirect rest { s with trace := s.trace ++ [Ev.out m] }

/-- `await self._app(scope, receive, send)` for a non-lifespan scope. -/
def runAppDirect (app : AppBehavior) (inbox : List Message) : RunOutput :=
  let s0 : RunState := { trace := [Ev.appCall], send_events := [],
                         rcv_events := [], inbox := inbox }
  let res := runActionsDirect app.actions s0
  if res.2 then { result := RunResult.blocked, state := res.1 }
  else
    match app.outcome with
    | AppOutcome.ret =>
      { result := RunResult.ok, state := { res.1 with trace := res.1.trace ++ [Ev.appReturn] } }
    | AppOutcome.raise e =>
      { result := RunResult.raised e,
        state := { res.1 with trace := res.1.trace ++ [Ev.appRaised e] } }

/-- `LifespanMiddleware.__call__` of
`src/asgi_lifespan_middleware/_middleware.py`, dispatching on the scope
type (lines 20-23). -/
def call (scopeType : String) (app : AppBehavior) (ls : LifespanCM)
    (inbox : List Message) : RunOutput :=
  if scopeType = lifespanType then lifespanCall app ls inbox
  else runAppDirect app inbox

/-- The old variant's wrapped send (`src/asgi_lifespan/_middleware.py`,
lines 23-28): it records only `lifespan.startup.complete` in `send_events`
and forwards every message, including `lifespan.shutdown.complete`.  The app
receives through the raw `receive`. -/
def runActionsOld : List AppAction → RunState → RunState × Bool
  | [], s => (s, false)
  | AppAction.recv :: rest, s =>
    match s.inbox with
    | [] => (s, true)
    | m :: tl =>
      runActionsOld rest { s with inbox := tl, trace := s.trace ++ [Ev.recv m.type] }
  | AppAction.send m :: rest, s =>
    let se := if m.type = startupComplete then s.send_events ++ [m.type] else s.send_events
    runActionsOld rest { s with send_events := se,
                                trace := s.trace ++ [Ev.wrappedSend m.type, Ev.out m] }

/-- Lines 66-76 of the old variant after the app call: same ledger checks,
but the run falls off the `async with` with no further send (the old variant
has no final send; `cleanup`'s line 44 is its only
`lifespan.shutdown.complete`). -/
def afterAppOld (s : RunState) (ls : LifespanCM) : RunOutput :=
  if startupFailed ∈ s.send_events then unwindNormal s ls
  else if startupComplete ∈ s.send_events then unwindNormal s ls
  else
    match s.inbox with
    | [] => { result := RunResult.blocked, state := s }
    | m1 :: rest =>
      let sA : RunState := { s with inbox := rest,
                                    trace := s.trace ++ [Ev.recv m1.type, Ev.out scMsg] }
      match rest with
      | [] => { result := RunResult.blocked, state := sA }
      | m2 :: rest2 =>
        unwindNormal { sA with inbox := rest2,
                               trace := sA.trace ++ [Ev.recv m2.type] } ls

/-- The lifespan branch of the old variant
(`src/asgi_lifespan/_middleware.py`, lines 22-76): factory and enter inside
the stack, app run with raw receive and wrapped send, and `except Exception`
(line 63) which swallows `Exception`s unconditionally but lets other
`BaseException`s unwind the stack. -/
def lifespanCallOld (app : AppBehavior) (ls : LifespanCM) (inbox : List Message) : RunOutput :=
  let s0 : RunState := { trace := [Ev.factoryCall], send_events := [],
                         rcv_events := [], inbox := inbox }
  match ls.enterFault with
  | some e =>
    { result := RunResult.raised e,
      state := { s0 with trace := s0.trace ++ [Ev.out (failedMsg s0 e)] } }
  | none =>
    let s1 : RunState := { s0 with trace := s0.trace ++ [Ev.enterLifespan, Ev.appCall] }
    let res := runActionsOld app.actions s1
    if res.2 then { result := RunResult.blocked, state := res.1 }
    else
      match app.outcome with
      | AppOutcome.raise e =>
        let s3 : RunState := { res.1 with trace := res.1.trace ++ [Ev.appRaised e] }
        if e.isException then afterAppOld s3 ls else unwindRaise s3 ls e
      | AppOutcome.ret =>
        afterAppOld { res.1 with trace := res.1.trace ++ [Ev.appReturn] } ls

/-- `LifespanMiddleware.__call__` of `src/asgi_lifespan/_middleware.py`,
dispatching on the scope type (lines 17-20). -/
def callOld (scopeType : String) (app : AppBehavior) (ls : LifespanCM)
    (inbox : List Message) : RunOutput :=
  if scopeType = lifespanType then lifespanCallOld app ls inbox
  else runAppDirect app inbox

/-- The messages delivered to the real outbound channel, in order. -/
def outMsgs (tr : List Ev) : List Message :=
  tr.filterMap (fun e => match e with | Ev.out m => some m | _ => none)

/-- The types recorded by the wrapped send endpoint, read off the trace. -/
def wsOf (e : Ev) : Option String :=
  match e with | Ev.wrappedSend t => some t | _ => none

/-- How many receives the app performs. -/
def countRecv : List AppAction → Nat
  | [] => 0
  | AppAction.recv :: rest => countRecv rest + 1
  | AppAction.send _ :: rest => countRecv rest

/-- The types of the messages the app sends, in order. -/
def sentTypes : List AppAction → List String
  | [] => []
  | AppAction.recv :: rest => sentTypes rest
  | AppAction.send m :: rest => m.type :: sentTypes rest

/-- The messages the app sends, in order. -/
def sentMsgs : List AppAction → List Message
  | [] => []
  | AppAction.recv :: rest => sentMsgs rest
  | AppAction.send m :: rest => m :: sentMsgs rest

/-- Events marking an invocation of the lifespan cm's exit operation. -/
def isExitEv : Ev → Bool
  | Ev.exitLifespan => true
  | Ev.exitLifespanRaised => true
  | _ => false

/-- Events marking the end of the wrapped app's coroutine. -/
def isAppEnd : Ev → Bool
  | Ev.appReturn => true
  | Ev.appRaised _ => true
  | _ => false

/-- The event recording a completed resource teardown. -/
def isExitDone : Ev → Bool
  | Ev.exitLifespan => true
  | _ => false

/-- An outbound delivery of a `lifespan.shutdown.complete` message. -/
def isScOut : Ev → Bool
  | Ev.out m => m.type == shutdownComplete
  | _ => false

/-- The trace marker for the app's outcome. -/
def appEndMark : AppOutcome → Ev
  | AppOutcome.ret => Ev.appReturn
  | AppOutcome.raise e => Ev.appRaised e

/-- Concrete supervisor startup request used in witnesses. -/
def startupReq : Message := { type := "lifespan.startup", message := none }

/-- Concrete supervisor shutdown request used in witnesses. -/
def shutdownReq : Message := { type := "lifespan.shutdown", message := none }

/-- The supervisor drives one full handshake: startup then shutdown. -/
def stdInbox : List Message := [startupReq, shutdownReq]

/-- A lifespan context manager whose enter and exit both succeed. -/
def noFaultCM : LifespanCM := { enterFault := none, exitFault := none }

/-- A participant app with a clean run: it consumes the startup request,
sends `lifespan.startup.complete`, waits for the shutdown request, sends
`lifespan.shutdown.complete` and returns. -/
def cleanApp : AppBehavior :=
  { actions := [AppAction.recv, AppAction.send scMsg, AppAction.recv, AppAction.send shcMsg],
    outcome := AppOutcome.ret }

/-- A sample exception. -/
def boomExc : Exc := { text := "RuntimeError: boom", isException := true }

/-- Characterisation of the events the app phase can append to the trace. -/
def appEvOk (acts : List AppAction) (e : Ev) : Prop :=
  (∃ t, e = Ev.recv t) ∨
  (∃ m, AppAction.send m ∈ acts ∧ e = Ev.wrappedSend m.type) ∨
  (∃ m, AppAction.send m ∈ acts ∧ m.type ≠ shutdownComplete ∧ e = Ev.out m)

lemma appEvOk_mono {acts : List AppAction} {a : AppAction} {e : Ev}
    (h : appEvOk acts e) : appEvOk (a :: acts) e := by
  rcases h with h | ⟨m, hm, he⟩ | ⟨m, hm, hne, he⟩
  · exact Or.inl h
  · exact Or.inr (Or.inl ⟨m, List.mem_cons_of_mem _ hm, he⟩)
  · exact Or.inr (Or.inr ⟨m, List.mem_cons_of_mem _ hm, hne, he⟩)

lemma runActions_trace (acts : List AppAction) : ∀ s : RunState, ∃ d : List Ev,
    (runActions acts s).1.trace = s.trace ++ d ∧ ∀ e ∈ d, appEvOk acts e := by
  induction acts with
  | nil =>
    intro s
    exact ⟨[], by simp [runActions], by simp⟩
  | cons a rest ih =>
    intro s
    cases a with
    | recv =>
      cases hin : s.inbox with
      | nil => exact ⟨[], by simp [runActions, hin], by simp⟩
      | cons m tl =>
        obtain ⟨d, hd, hok⟩ := ih { s with inbox := tl, rcv_events := s.rcv_events ++ [m.type], trace := s.trace ++ [Ev.recv m.type] }
        refine ⟨Ev.recv m.type :: d, ?_, ?_⟩
        · simp only [runActions, hin]
          rw [hd]
          simp
        · intro e he
          rcases List.mem_cons.1 he with he | he
          · exact Or.inl ⟨m.type, he⟩
          · exact appEvOk_mono (hok e he)
    | send m =>
      by_cases hty : m.type = shutdownComplete
      · obtain ⟨d, hd, hok⟩ := ih { s with send_events := s.send_events ++ [m.type], trace := s.trace ++ [Ev.wrappedSend m.type] }
        refine ⟨Ev.wrappedSend m.type :: d, ?_, ?_⟩
        · simp only [runActions, if_pos hty]
          rw [hd]
          simp
        · intro e he
          rcases List.mem_cons.1 he with he | he
          · exact Or.inr (Or.inl ⟨m, List.mem_cons_self _ _, he⟩)
          · exact appEvOk_mono (hok e he)
      · obtain ⟨d, hd, hok⟩ := ih { s with send_events := s.send_events ++ [m.type], trace := (s.trace ++ [Ev.wrappedSend m.type]) ++ [Ev.out m] }
        refine ⟨Ev.wrappedSend m.type :: Ev.out m :: d, ?_, ?_⟩
        · simp only [runActions, if_neg hty]
          rw [hd]
          simp
        · intro e he
          rcases List.mem_cons.1 he with he | he
          · exact Or.inr (Or.inl ⟨m, List.mem_cons_self _ _, he⟩)
          · rcases List.mem_cons.1 he with he | he
            · exact Or.inr (Or.inr ⟨m, List.mem_cons_self _ _, hty, he⟩)
            · exact appEvOk_mono (hok e he)

lemma runActions_notBlocked (acts : List AppAction) : ∀ s : RunState,
    countRecv acts ≤ s.inbox.length →
    (runActions acts s).2 = false ∧
    (runActions acts s).1.inbox = s.inbox.drop (countRecv acts) := by
  induction acts with
  | nil =>
    intro s _
    simp [runActions, countRecv]
  | cons a rest ih =>
    intro s hlen
    cases a with
    | recv =>
      cases hin : s.inbox with
      | nil =>
        rw [hin] at hlen
        simp [countRecv] at hlen
      | cons m tl =>
        have hlen2 : countRecv rest ≤ tl.length := by
          rw [hin] at hlen
          simp [countRecv] at hlen
          omega
        have := ih { s with inbox := tl, rcv_events := s.rcv_events ++ [m.type], trace := s.trace ++ [Ev.recv m.type] } hlen2
        simp only [runActions, hin]
        simpa [countRecv, hin] using this
    | send m =>
      by_cases hty : m.type = shutdownComplete
      · have := ih { s with send_events := s.send_events ++ [m.type], trace := s.trace ++ [Ev.wrappedSend m.type] } (by simpa [countRecv] using hlen)
        simp only [runActions, if_pos hty]
        simpa [countRecv] using this
      · have := ih { s with send_events := s.send_events ++ [m.type], trace := (s.trace ++ [Ev.wrappedSend m.type]) ++ [Ev.out m] }
          (by simpa [countRecv] using hlen)
        simp only [runActions, if_neg hty]
        simpa [countRecv] using this

lemma runActions_send_events (acts : List AppAction) : ∀ s : RunState,
    countRecv acts ≤ s.inbox.length →
    (runActions acts s).1.send_events = s.send_events ++ sentTypes acts := by
  induction acts with
  | nil =>
    intro s _
    simp [runActions, sentTypes]
  | cons a rest ih =>
    intro s hlen
    cases a with
    | recv =>
      cases hin : s.inbox with
      | nil =>
        rw [hin] at hlen
        simp [countRecv] at hlen
      | cons m tl =>
        have hlen2 : countRecv rest ≤ tl.length := by
          rw [hin] at hlen
          simp [countRecv] at hlen
          omega
        have := ih { s with inbox := tl, rcv_events := s.rcv_events ++ [m.type], trace := s.trace ++ [Ev.recv m.type] } hlen2
        simp only [runActions, hin]
        simpa [sentTypes] using this
    | send m =>
      by_cases hty : m.type = shutdownComplete
      · have := ih { s with send_events := s.send_events ++ [m.type], trace := s.trace ++ [Ev.wrappedSend m.type] } (by simpa [countRecv] using hlen)
        simp only [runActions, if_pos hty]
        rw [this]
        simp [sentTypes]
      · have := ih { s with send_events := s.send_events ++ [m.type], trace := (s.trace ++ [Ev.wrappedSend m.type]) ++ [Ev.out m] }
          (by simpa [countRecv] using hlen)
        simp only [runActions, if_neg hty]
        rw [this]
        simp [sentTypes]

lemma runActions_trace_mem {s : RunState} {e : Ev} (acts : List AppAction)
    (h : e ∈ s.trace) : e ∈ (runActions acts s).1.trace := by
  obtain ⟨d, hd, _⟩ := runActions_trace acts s
  rw [hd]
  exact List.mem_append_left _ h

lemma runActions_forwards (acts : List AppAction) : ∀ s : RunState,
    countRecv acts ≤ s.inbox.length →
    ∀ m : Message, AppAction.send m ∈ acts → m.type ≠ shutdownComplete →
    Ev.out m ∈ (runActions acts s).1.trace := by
  induction acts with
  | nil =>
    intro s _ m hm
    simp at hm
  | cons a rest ih =>
    intro s hlen m hm hty
    cases a with
    | recv =>
      cases hin : s.inbox with
      | nil =>
        rw [hin] at hlen
        simp [countRecv] at hlen
      | cons m0 tl =>
        have hlen2 : countRecv rest ≤ tl.length := by
          rw [hin] at hlen
          simp [countRecv] at hlen
          omega
        have hm2 : AppAction.send m ∈ rest := by
          rcases List.mem_cons.1 hm with h | h
          · exact absurd h (by simp)
          · exact h
        simp only [runActions, hin]
        exact ih { s with inbox := tl, rcv_events := s.rcv_events ++ [m0.type], trace := s.trace ++ [Ev.recv m0.type] } hlen2 m hm2 hty
    | send m1 =>
      rcases List.mem_cons.1 hm with h | h
      · have hmeq : m1 = m := by
          cases h
          rfl
      -- the send of m itself: the out event is appended and persists
        subst hmeq
        simp only [runActions, if_neg hty]
        refine runActions_trace_mem rest ?_
        simp
      · by_cases hty1 : m1.type = shutdownComplete
        · simp only [runActions, if_pos hty1]
          exact ih { s with send_events := s.send_events ++ [m1.type], trace := s.trace ++ [Ev.wrappedSend m1.type] } (by simpa [countRecv] using hlen) m h hty
        · simp only [runActions, if_neg hty1]
          exact ih { s with send_events := s.send_events ++ [m1.type], trace := (s.trace ++ [Ev.wrappedSend m1.type]) ++ [Ev.out m1] } (by simpa [countRecv] using hlen) m h hty

lemma runActionsDirect_trace (acts : List AppAction) : ∀ s : RunState, ∃ d : List Ev,
    (runActionsDirect acts s).1.trace = s.trace ++ d ∧
    (∀ e ∈ d, (∃ t, e = Ev.recv t) ∨ (∃ m, AppAction.send m ∈ acts ∧ e = Ev.out m)) := by
  induction acts with
  | nil =>
    intro s
    exact ⟨[], by simp [runActionsDirect], by simp⟩
  | cons a rest ih =>
    intro s
    cases a with
    | recv =>
      cases hin : s.inbox with
      | nil => exact ⟨[], by simp [runActionsDirect, hin], by simp⟩
      | cons m tl =>
        obtain ⟨d, hd, hok⟩ := ih { s with inbox := tl, trace := s.trace ++ [Ev.recv m.type] }
        refine ⟨Ev.recv m.type :: d, ?_, ?_⟩
        · simp only [runActionsDirect, hin]
          rw [hd]
          simp
        · intro e he
          rcases List.mem_cons.1 he with he | he
          · exact Or.inl ⟨m.type, he⟩
          · rcases hok e he with h | ⟨m2, hm2, he2⟩
            · exact Or.inl h
            · exact Or.inr ⟨m2, List.mem_cons_of_mem _ hm2, he2⟩
    | send m =>
      obtain ⟨d, hd, hok⟩ := ih { s with trace := s.trace ++ [Ev.out m] }
      refine ⟨Ev.out m :: d, ?_, ?_⟩
      · simp only [runActionsDirect]
        rw [hd]
        simp
      · intro e he
        rcases List.mem_cons.1 he with he | he
        · exact Or.inr ⟨m, List.mem_cons_self _ _, he⟩
        · rcases hok e he with h | ⟨m2, hm2, he2⟩
          · exact Or.inl h
          · exact Or.inr ⟨m2, List.mem_cons_of_mem _ hm2, he2⟩

lemma runActionsDirect_ledgers (acts : List AppAction) : ∀ s : RunState,
    (runActionsDirect acts s).1.send_events = s.send_events ∧
    (runActionsDirect acts s).1.rcv_events = s.rcv_events := by
  induction acts with
  | nil =>
    intro s
    simp [runActionsDirect]
  | cons a rest ih =>
    intro s
    cases a with
    | recv =>
      cases hin : s.inbox with
      | nil => simp [runActionsDirect, hin]
      | cons m tl =>
        simp only [runActionsDirect, hin]
        exact ih _
    | send m =>
      simp only [runActionsDirect]
      exact ih _

lemma runActionsDirect_outs (acts : List AppAction) : ∀ s : RunState,
    countRecv acts ≤ s.inbox.length →
    (runActionsDirect acts s).2 = false ∧
    outMsgs (runActionsDirect acts s).1.trace = outMsgs s.trace ++ sentMsgs acts := by
  induction acts with
  | nil =>
    intro s _
    simp [runActionsDirect, sentMsgs]
  | cons a rest ih =>
    intro s hlen
    cases a with
    | recv =>
      cases hin : s.inbox with
      | nil =>
        rw [hin] at hlen
        simp [countRecv] at hlen
      | cons m tl =>
        have hlen2 : countRecv rest ≤ tl.length := by
          rw [hin] at hlen
          simp [countRecv] at hlen
          omega
        have := ih { s with inbox := tl, trace := s.trace ++ [Ev.recv m.type] } hlen2
        simp only [runActionsDirect, hin]
        simpa [sentMsgs, outMsgs] using this
    | send m =>
      have := ih { s with trace := s.trace ++ [Ev.out m] } (by simpa [countRecv] using hlen)
      simp only [runActionsDirect]
      rcases this with ⟨h1, h2⟩
      refine ⟨h1, ?_⟩
      rw [h2]
      simp [sentMsgs, outMsgs]

lemma runActionsDirect_result (acts : List AppAction) : ∀ s : RunState,
    countRecv acts ≤ s.inbox.length → (runActionsDirect acts s).2 = false := by
  intro s h
  exact (runActionsDirect_outs acts s h).1

/-- Generic trace scanner: scanning from the left, no `bad` event occurs
before the first `stop` event. -/
def noneBefore (stop bad : Ev → Bool) : List Ev → Bool
  | [] => true
  | e :: tl => if stop e then true else if bad e then false else noneBefore stop bad tl

lemma noneBefore_of_all_good {stop bad : Ev → Bool} : ∀ {r : List Ev},
    (∀ e ∈ r, bad e = false) → noneBefore stop bad r = true := by
  intro r
  induction r with
  | nil => intro _; rfl
  | cons e tl ih =>
    intro h
    by_cases hs : stop e = true
    · simp [noneBefore, hs]
    · have hb : bad e = false := h e (List.mem_cons_self _ _)
      simp [noneBefore, hs, hb]
      exact ih (fun e2 he2 => h e2 (List.mem_cons_of_mem _ he2))

lemma noneBefore_append_of_good {stop bad : Ev → Bool} : ∀ {l r : List Ev},
    noneBefore stop bad l = true → (∀ e ∈ r, bad e = false) →
    noneBefore stop bad (l ++ r) = true := by
  intro l
  induction l with
  | nil =>
    intro r _ hr
    exact noneBefore_of_all_good hr
  | cons e tl ih =>
    intro r hl hr
    by_cases hs : stop e = true
    · simp [noneBefore, hs]
    · by_cases hb : bad e = true
      · rw [noneBefore, if_neg (by simp [hs]), if_pos hb] at hl
        exact absurd hl (by simp)
      · rw [noneBefore, if_neg (by simp [hs]), if_neg hb] at hl
        rw [List.cons_append, noneBefore, if_neg (by simp [hs]), if_neg hb]
        exact ih hl hr

lemma noneBefore_append_of_stop {stop bad : Ev → Bool} : ∀ {l : List Ev},
    noneBefore stop bad l = true → (∃ e ∈ l, stop e = true) →
    ∀ r : List Ev, noneBefore stop bad (l ++ r) = true := by
  intro l
  induction l with
  | nil =>
    intro _ hex
    simp at hex
  | cons e tl ih =>
    intro hl hex r
    by_cases hs : stop e = true
    · simp [noneBefore, hs]
    · by_cases hb : bad e = true
      · rw [noneBefore, if_neg (by simp [hs]), if_pos hb] at hl
        exact absurd hl (by simp)
      · rw [noneBefore, if_neg (by simp [hs]), if_neg hb] at hl
        rcases hex with ⟨e2, he2, hse2⟩
        rcases List.mem_cons.1 he2 with he2 | he2
        · subst he2
          exact absurd hse2 (by simp [hs])
        · rw [List.cons_append, noneBefore, if_neg (by simp [hs]), if_neg hb]
          exact ih hl ⟨e2, he2, hse2⟩ r

lemma noneBefore_split {stop bad : Ev → Bool}
    (hdisj : ∀ e, bad e = true → stop e = false) :
    ∀ (l1 : List Ev) (l : List Ev), noneBefore stop bad l = true →
    ∀ (e : Ev) (l2 : List Ev), l = l1 ++ e :: l2 → bad e = true →
    ∃ e2 ∈ l1, stop e2 = true := by
  intro l1
  induction l1 with
  | nil =>
    intro l hl e l2 heq hbad
    subst heq
    simp only [List.nil_append] at hl
    rw [noneBefore, if_neg (by simp [hdisj e hbad]), if_pos hbad] at hl
    exact absurd hl (by simp)
  | cons a tl ih =>
    intro l hl e l2 heq hbad
    subst heq
    by_cases hs : stop a = true
    · exact ⟨a, List.mem_cons_self _ _, hs⟩
    · by_cases hb : bad a = true
      · rw [List.cons_append, noneBefore, if_neg (by simp [hs]), if_pos hb] at hl
        exact absurd hl (by simp)
      · rw [List.cons_append, noneBefore, if_neg (by simp [hs]), if_neg hb] at hl
        obtain ⟨e2, he2, hse2⟩ := ih _ hl e l2 rfl hbad
        exact ⟨e2, List.mem_cons_of_mem _ he2, hse2⟩

lemma failedMsg_type (s : RunState) (e : Exc) :
    (failedMsg s e).type = shutdownFailed ∨ (failedMsg s e).type = startupFailed := by
  unfold failedMsg
  by_cases h : startupComplete ∈ s.send_events
  · rw [if_pos h]
    exact Or.inl rfl
  · rw [if_neg h]
    exact Or.inr rfl

lemma isScOut_failedMsg (s : RunState) (e : Exc) :
    isScOut (Ev.out (failedMsg s e)) = false := by
  rcases failedMsg_type s e with h | h <;>
    simp only [isScOut, h] <;> decide

lemma unwindRaise_spec (s : RunState) (ls : LifespanCM) (e : Exc) : ∃ tail,
    (unwindRaise s ls e).state.trace = s.trace ++ tail ∧
    (unwindRaise s ls e).state.send_events = s.send_events ∧
    tail.countP isExitEv = 1 ∧
    (∀ t, Ev.wrappedSend t ∉ tail) ∧
    (∃ e2, (unwindRaise s ls e).result = RunResult.raised e2) := by
  cases hef : ls.exitFault with
  | some e2 =>
    refine ⟨[Ev.exitLifespanRaised, Ev.out (failedMsg s e2)], ?_⟩
    simp [unwindRaise, hef, List.countP_cons, isExitEv]
  | none =>
    refine ⟨[Ev.exitLifespan, Ev.out (failedMsg s e)], ?_⟩
    simp [unwindRaise, hef, List.countP_cons, isExitEv]

lemma unwindNormal_spec (s : RunState) (ls : LifespanCM) : ∃ tail,
    (unwindNormal s ls).state.trace = s.trace ++ tail ∧
    (unwindNormal s ls).state.send_events = s.send_events ∧
    tail.countP isExitEv = 1 ∧
    (∀ t, Ev.wrappedSend t ∉ tail) ∧
    (unwindNormal s ls).result ≠ RunResult.blocked := by
  cases hef : ls.exitFault with
  | some e2 =>
    refine ⟨[Ev.exitLifespanRaised, Ev.out (failedMsg s e2)], ?_⟩
    simp [unwindNormal, hef, List.countP_cons, isExitEv]
  | none =>
    refine ⟨[Ev.exitLifespan, Ev.out shcMsg], ?_⟩
    simp [unwindNormal, hef, List.countP_cons, isExitEv]

lemma finishNormally_spec (s : RunState) (ls : LifespanCM) : ∃ tail,
    (finishNormally s ls).state.trace = s.trace ++ tail ∧
    (finishNormally s ls).state.send_events = s.send_events ∧
    tail.countP isExitEv = 1 ∧
    (∀ t, Ev.wrappedSend t ∉ tail) ∧
    (finishNormally s ls).result ≠ RunResult.blocked := by
  cases hef : ls.exitFault with
  | some e2 =>
    refine ⟨[Ev.exitLifespanRaised, Ev.out (failedMsg s e2)], ?_⟩
    simp [finishNormally, hef, List.countP_cons, isExitEv]
  | none =>
    refine ⟨[Ev.exitLifespan, Ev.out shcMsg, Ev.out shcMsg], ?_⟩
    simp [finishNormally, hef, List.countP_cons, isExitEv]

lemma afterApp_spec (s : RunState) (ls : LifespanCM) : ∃ tail,
    (afterApp s ls).state.trace = s.trace ++ tail ∧
    (afterApp s ls).state.send_events = s.send_events ∧
    (∀ t, Ev.wrappedSend t ∉ tail) ∧
    (((afterApp s ls).result = RunResult.blocked ∧ tail.countP isExitEv = 0) ∨
     ((afterApp s ls).result ≠ RunResult.blocked ∧ tail.countP isExitEv = 1)) := by
  by_cases h1 : startupFailed ∈ s.send_events
  · obtain ⟨tail, ht, hse, hc, hw, hnb⟩ := unwindNormal_spec s ls
    refine ⟨tail, ?_, ?_, hw, Or.inr ⟨?_, hc⟩⟩ <;>
      simp [afterApp, h1, ht, hse, hnb]
  · by_cases h2 : startupComplete ∈ s.send_events
    · obtain ⟨tail, ht, hse, hc, hw, hnb⟩ := finishNormally_spec s ls
      refine ⟨tail, ?_, ?_, hw, Or.inr ⟨?_, hc⟩⟩ <;>
        simp [afterApp, h1, h2, ht, hse, hnb]
    · cases hin : s.inbox with
      | nil =>
        refine ⟨[], ?_, ?_, by simp, Or.inl ⟨?_, rfl⟩⟩ <;>
          simp [afterApp, h1, h2, hin]
      | cons m1 rest =>
        cases hrest : rest with
        | nil =>
          refine ⟨[Ev.recv m1.type, Ev.out scMsg], ?_, ?_, by simp, Or.inl ⟨?_, by simp [List.countP_cons, isExitEv]⟩⟩ <;>
            simp [afterApp, h1, h2, hin, hrest]
        | cons m2 rest2 =>
          obtain ⟨tail, ht, hse, hc, hw, hnb⟩ := finishNormally_spec
            { s with inbox := rest2,
                     trace := (s.trace ++ [Ev.recv m1.type, Ev.out scMsg]) ++ [Ev.recv m2.type] } ls
          refine ⟨[Ev.recv m1.type, Ev.out scMsg, Ev.recv m2.type] ++ tail, ?_, ?_, ?_, Or.inr ⟨?_, ?_⟩⟩
          · simp only [afterApp, h1, h2, hin, hrest, if_false]
            rw [ht]
            simp
          · simp only [afterApp, h1, h2, hin, hrest, if_false]
            rw [hse]
          · intro t hmem
            rcases List.mem_append.1 hmem with hmem | hmem
            · simp at hmem
            · exact hw t hmem
          · simp only [afterApp, h1, h2, hin, hrest, if_false]
            exact hnb
          · rw [List.countP_append, hc]
            simp [List.countP_cons, isExitEv]

/-- The run state just after the factory call, the two context entries and
the app invocation, for an inbound channel `inbox`. -/
def initS (inbox : List Message) : RunState :=
  { trace := [Ev.factoryCall, Ev.enterLifespan, Ev.appCall],
    send_events := [], rcv_events := [], inbox := inbox }

lemma lifespanCall_some {ls : LifespanCM} {e : Exc} (app : AppBehavior)
    (inbox : List Message) (henf : ls.enterFault = some e) :
    lifespanCall app ls inbox =
      { result := RunResult.raised e,
        state := { trace := [Ev.factoryCall,
                             Ev.out { type := startupFailed, message := some (format_exc e) }],
                   send_events := [], rcv_events := [], inbox := inbox } } := by
  simp [lifespanCall, henf, failedMsg]

lemma lifespanCall_none_blocked {ls : LifespanCM} (app : AppBehavior)
    (inbox : List Message) (henf : ls.enterFault = none)
    (hblk : (runActions app.actions (initS inbox)).2 = true) :
    lifespanCall app ls inbox =
      { result := RunResult.blocked, state := (runActions app.actions (initS inbox)).1 } := by
  simp only [initS] at hblk
  simp only [lifespanCall, henf, List.cons_append, List.nil_append]
  rw [if_pos hblk]
  simp [initS]

lemma lifespanCall_none_ret {ls : LifespanCM} (app : AppBehavior)
    (inbox : List Message) (henf : ls.enterFault = none)
    (hnb : (runActions app.actions (initS inbox)).2 = false)
    (ho : app.outcome = AppOutcome.ret) :
    lifespanCall app ls inbox =
      afterApp { (runActions app.actions (initS inbox)).1 with
                 trace := (runActions app.actions (initS inbox)).1.trace ++ [Ev.appReturn] } ls := by
  simp only [initS] at hnb
  simp only [lifespanCall, henf, List.cons_append, List.nil_append]
  rw [if_neg (by simp [hnb]), ho]
  simp [initS]

lemma lifespanCall_none_raise {ls : LifespanCM} {e : Exc} (app : AppBehavior)
    (inbox : List Message) (henf : ls.enterFault = none)
    (hnb : (runActions app.actions (initS inbox)).2 = false)
    (ho : app.outcome = AppOutcome.raise e) :
    lifespanCall app ls inbox =
      (if startupFailed ∈ (runActions app.actions (initS inbox)).1.send_events ∨
          shutdownFailed ∈ (runActions app.actions (initS inbox)).1.send_events
       then unwindRaise { (runActions app.actions (initS inbox)).1 with
                          trace := (runActions app.actions (initS inbox)).1.trace ++ [Ev.appRaised e] } ls e
       else afterApp { (runActions app.actions (initS inbox)).1 with
                       trace := (runActions app.actions (initS inbox)).1.trace ++ [Ev.appRaised e] } ls) := by
  simp only [initS] at hnb
  simp only [lifespanCall, henf, List.cons_append, List.nil_append]
  rw [if_neg (by simp [hnb]), ho]
  simp [initS]

lemma isScOut_of_appEvOk {acts : List AppAction} {e : Ev}
    (h : appEvOk acts e) : isScOut e = false := by
  rcases h with ⟨t, he⟩ | ⟨m, _, he⟩ | ⟨m, _, hne, he⟩ <;> subst he
  · rfl
  · rfl
  · simpa [isScOut] using hne

lemma isExitEv_of_appEvOk {acts : List AppAction} {e : Ev}
    (h : appEvOk acts e) : isExitEv e = false := by
  rcases h with ⟨t, he⟩ | ⟨m, _, he⟩ | ⟨m, _, _, he⟩ <;> subst he <;> rfl

lemma isAppEnd_of_appEvOk {acts : List AppAction} {e : Ev}
    (h : appEvOk acts e) : isAppEnd e = false := by
  rcases h with ⟨t, he⟩ | ⟨m, _, he⟩ | ⟨m, _, _, he⟩ <;> subst he <;> rfl

lemma noScOut_unwindRaise (s : RunState) (ls : LifespanCM) (e : Exc)
    (h : noneBefore isExitDone isScOut s.trace = true) :
    noneBefore isExitDone isScOut (unwindRaise s ls e).state.trace = true := by
  cases hef : ls.exitFault with
  | some e2 =>
    simp only [unwindRaise, hef]
    refine noneBefore_append_of_good h ?_
    intro ev hev
    rcases List.mem_cons.1 hev with rfl | hev
    · rfl
    · rcases List.mem_cons.1 hev with rfl | hev
      · exact isScOut_failedMsg s e2
      · simp at hev
  | none =>
    simp only [unwindRaise, hef]
    have h1 : noneBefore isExitDone isScOut (s.trace ++ [Ev.exitLifespan]) = true := by
      refine noneBefore_append_of_good h ?_
      intro ev hev
      rcases List.mem_cons.1 hev with rfl | hev
      · rfl
      · simp at hev
    have h2 := noneBefore_append_of_stop h1
      ⟨Ev.exitLifespan, by simp, rfl⟩ [Ev.out (failedMsg s e)]
    have heq : s.trace ++ [Ev.exitLifespan, Ev.out (failedMsg s e)] =
        (s.trace ++ [Ev.exitLifespan]) ++ [Ev.out (failedMsg s e)] := by simp
    rw [heq]
    exact h2

lemma noScOut_unwindNormal (s : RunState) (ls : LifespanCM)
    (h : noneBefore isExitDone isScOut s.trace = true) :
    noneBefore isExitDone isScOut (unwindNormal s ls).state.trace = true := by
  cases hef : ls.exitFault with
  | some e2 =>
    simp only [unwindNormal, hef]
    refine noneBefore_append_of_good h ?_
    intro ev hev
    rcases List.mem_cons.1 hev with rfl | hev
    · rfl
    · rcases List.mem_cons.1 hev with rfl | hev
      · exact isScOut_failedMsg s e2
      · simp at hev
  | none =>
    simp only [unwindNormal, hef]
    have h1 : noneBefore isExitDone isScOut (s.trace ++ [Ev.exitLifespan]) = true := by
      refine noneBefore_append_of_good h ?_
      intro ev hev
      rcases List.mem_cons.1 hev with rfl | hev
      · rfl
      · simp at hev
    have h2 := noneBefore_append_of_stop h1
      ⟨Ev.exitLifespan, by simp, rfl⟩ [Ev.out shcMsg]
    have heq : s.trace ++ [Ev.exitLifespan, Ev.out shcMsg] =
        (s.trace ++ [Ev.exitLifespan]) ++ [Ev.out shcMsg] := by simp
    rw [heq]
    exact h2

lemma noScOut_finishNormally (s : RunState) (ls : LifespanCM)
    (h : noneBefore isExitDone isScOut s.trace = true) :
    noneBefore isExitDone isScOut (finishNormally s ls).state.trace = true := by
  cases hef : ls.exitFault with
  | some e2 =>
    simp only [finishNormally, hef]
    refine noneBefore_append_of_good h ?_
    intro ev hev
    rcases List.mem_cons.1 hev with rfl | hev
    · rfl
    · rcases List.mem_cons.1 hev with rfl | hev
      · exact isScOut_failedMsg s e2
      · simp at hev
  | none =>
    simp only [finishNormally, hef]
    have h1 : noneBefore isExitDone isScOut (s.trace ++ [Ev.exitLifespan]) = true := by
      refine noneBefore_append_of_good h ?_
      intro ev hev
      rcases List.mem_cons.1 hev with rfl | hev
      · rfl
      · simp at hev
    have h2 := noneBefore_append_of_stop h1
      ⟨Ev.exitLifespan, by simp, rfl⟩ [Ev.out shcMsg, Ev.out shcMsg]
    have heq : s.trace ++ [Ev.exitLifespan, Ev.out shcMsg, Ev.out shcMsg] =
        (s.trace ++ [Ev.exitLifespan]) ++ [Ev.out shcMsg, Ev.out shcMsg] := by simp
    rw [heq]
    exact h2

lemma noScOut_afterApp (s : RunState) (ls : LifespanCM)
    (h : noneBefore isExitDone isScOut s.trace = true) :
    noneBefore isExitDone isScOut (afterApp s ls).state.trace = true := by
  by_cases h1 : startupFailed ∈ s.send_events
  · simp only [afterApp, if_pos h1]
    exact noScOut_unwindNormal s ls h
  · by_cases h2 : startupComplete ∈ s.send_events
    · simp only [afterApp, if_neg h1, if_pos h2]
      exact noScOut_finishNormally s ls h
    · simp only [afterApp, if_neg h1, if_neg h2]
      cases hin : s.inbox with
      | nil => exact h
      | cons m1 rest =>
        have hmid : noneBefore isExitDone isScOut
            (s.trace ++ [Ev.recv m1.type, Ev.out scMsg]) = true := by
          refine noneBefore_append_of_good h ?_
          intro ev hev
          rcases List.mem_cons.1 hev with rfl | hev
          · rfl
          · rcases List.mem_cons.1 hev with rfl | hev
            · decide
            · simp at hev
        cases hrest : rest with
        | nil => exact hmid
        | cons m2 rest2 =>
          have hmid2 : noneBefore isExitDone isScOut
              ((s.trace ++ [Ev.recv m1.type, Ev.out scMsg]) ++ [Ev.recv m2.type]) = true := by
            refine noneBefore_append_of_good hmid ?_
            intro ev hev
            rcases List.mem_cons.1 hev with rfl | hev
            · rfl
            · simp at hev
          exact noScOut_finishNormally _ ls hmid2

lemma initS_good (inbox : List Message) (p : Ev → Bool)
    (h1 : p Ev.factoryCall = false) (h2 : p Ev.enterLifespan = false)
    (h3 : p Ev.appCall = false) :
    ∀ e ∈ (initS inbox).trace, p e = false := by
  intro e he
  simp only [initS] at he
  rcases List.mem_cons.1 he with rfl | he
  · exact h1
  · rcases List.mem_cons.1 he with rfl | he
    · exact h2
    · rcases List.mem_cons.1 he with rfl | he
      · exact h3
      · simp at he

lemma noScOut_lifespanCall (app : AppBehavior) (ls : LifespanCM) (inbox : List Message) :
    noneBefore isExitDone isScOut (lifespanCall app ls inbox).state.trace = true := by
  cases henf : ls.enterFault with
  | some e =>
    rw [lifespanCall_some app inbox henf]
    apply noneBefore_of_all_good
    intro ev hev
    rcases List.mem_cons.1 hev with rfl | hev
    · rfl
    · rcases List.mem_cons.1 hev with rfl | hev
      · simp [isScOut, startupFailed, shutdownComplete]
      · simp at hev
  | none =>
    obtain ⟨d, hd, hok⟩ := runActions_trace app.actions (initS inbox)
    have hbase : noneBefore isExitDone isScOut
        (runActions app.actions (initS inbox)).1.trace = true := by
      rw [hd]
      apply noneBefore_of_all_good
      intro ev hev
      rcases List.mem_append.1 hev with hev | hev
      · exact initS_good inbox _ rfl rfl rfl ev hev
      · exact isScOut_of_appEvOk (hok ev hev)
    cases hblk : (runActions app.actions (initS inbox)).2 with
    | true =>
      rw [lifespanCall_none_blocked app inbox henf hblk]
      exact hbase
    | false =>
      cases ho : app.outcome with
      | ret =>
        rw [lifespanCall_none_ret app inbox henf hblk ho]
        apply noScOut_afterApp
        refine noneBefore_append_of_good hbase ?_
        intro ev hev
        rcases List.mem_cons.1 hev with rfl | hev
        · rfl
        · simp at hev
      | raise e =>
        rw [lifespanCall_none_raise app inbox henf hblk ho]
        have hbase2 : noneBefore isExitDone isScOut
            ((runActions app.actions (initS inbox)).1.trace ++ [Ev.appRaised e]) = true := by
          refine noneBefore_append_of_good hbase ?_
          intro ev hev
          rcases List.mem_cons.1 hev with rfl | hev
          · rfl
          · simp at hev
        by_cases hcond : startupFailed ∈ (runActions app.actions (initS inbox)).1.send_events ∨
            shutdownFailed ∈ (runActions app.actions (initS inbox)).1.send_events
        · rw [if_pos hcond]
          exact noScOut_unwindRaise _ ls e hbase2
        · rw [if_neg hcond]
          exact noScOut_afterApp _ ls hbase2

lemma noAppEndExit_lifespanCall (app : AppBehavior) (ls : LifespanCM) (inbox : List Message) :
    noneBefore isAppEnd isExitEv (lifespanCall app ls inbox).state.trace = true := by
  cases henf : ls.enterFault with
  | some e =>
    rw [lifespanCall_some app inbox henf]
    apply noneBefore_of_all_good
    intro ev hev
    rcases List.mem_cons.1 hev with rfl | hev
    · rfl
    · rcases List.mem_cons.1 hev with rfl | hev
      · rfl
      · simp at hev
  | none =>
    obtain ⟨d, hd, hok⟩ := runActions_trace app.actions (initS inbox)
    have hbase : noneBefore isAppEnd isExitEv
        (runActions app.actions (initS inbox)).1.trace = true := by
      rw [hd]
      apply noneBefore_of_all_good
      intro ev hev
      rcases List.mem_append.1 hev with hev | hev
      · exact initS_good inbox _ rfl rfl rfl ev hev
      · exact isExitEv_of_appEvOk (hok ev hev)
    cases hblk : (runActions app.actions (initS inbox)).2 with
    | true =>
      rw [lifespanCall_none_blocked app inbox henf hblk]
      exact hbase
    | false =>
      cases ho : app.outcome with
      | ret =>
        rw [lifespanCall_none_ret app inbox henf hblk ho]
        have hT : noneBefore isAppEnd isExitEv
            ((runActions app.actions (initS inbox)).1.trace ++ [Ev.appReturn]) = true := by
          refine noneBefore_append_of_good hbase ?_
          intro ev hev
          rcases List.mem_cons.1 hev with rfl | hev
          · rfl
          · simp at hev
        obtain ⟨tail, ht, _, _, _⟩ := afterApp_spec
          { (runActions app.actions (initS inbox)).1 with
            trace := (runActions app.actions (initS inbox)).1.trace ++ [Ev.appReturn] } ls
        rw [ht]
        exact noneBefore_append_of_stop hT ⟨Ev.appReturn, by simp, rfl⟩ tail
      | raise e =>
        rw [lifespanCall_none_raise app inbox henf hblk ho]
        have hT : noneBefore isAppEnd isExitEv
            ((runActions app.actions (initS inbox)).1.trace ++ [Ev.appRaised e]) = true := by
          refine noneBefore_append_of_good hbase ?_
          intro ev hev
          rcases List.mem_cons.1 hev with rfl | hev
          · rfl
          · simp at hev
        by_cases hcond : startupFailed ∈ (runActions app.actions (initS inbox)).1.send_events ∨
            shutdownFailed ∈ (runActions app.actions (initS inbox)).1.send_events
        · rw [if_pos hcond]
          obtain ⟨tail, ht, _, _, _, _⟩ := unwindRaise_spec
            { (runActions app.actions (initS inbox)).1 with
              trace := (runActions app.actions (initS inbox)).1.trace ++ [Ev.appRaised e] } ls e
          rw [ht]
          exact noneBefore_append_of_stop hT ⟨Ev.appRaised e, by simp, rfl⟩ tail
        · rw [if_neg hcond]
          obtain ⟨tail, ht, _, _, _⟩ := afterApp_spec
            { (runActions app.actions (initS inbox)).1 with
              trace := (runActions app.actions (initS inbox)).1.trace ++ [Ev.appRaised e] } ls
          rw [ht]
          exact noneBefore_append_of_stop hT ⟨Ev.appRaised e, by simp, rfl⟩ tail

lemma countP_zero_of_appEvOk {acts : List AppAction} {d : List Ev}
    (hok : ∀ e ∈ d, appEvOk acts e) : d.countP isExitEv = 0 := by
  rw [List.countP_eq_zero]
  intro a ha
  simp [isExitEv_of_appEvOk (hok a ha)]

lemma lifespanCall_exitCount (app : AppBehavior) (ls : LifespanCM) (inbox : List Message) :
    (Ev.enterLifespan ∉ (lifespanCall app ls inbox).state.trace ∧
      (lifespanCall app ls inbox).state.trace.countP isExitEv = 0) ∨
    (Ev.enterLifespan ∈ (lifespanCall app ls inbox).state.trace ∧
      (((lifespanCall app ls inbox).result = RunResult.blocked ∧
          (lifespanCall app ls inbox).state.trace.countP isExitEv = 0) ∨
       ((lifespanCall app ls inbox).result ≠ RunResult.blocked ∧
          (lifespanCall app ls inbox).state.trace.countP isExitEv = 1))) := by
  cases henf : ls.enterFault with
  | some e =>
    rw [lifespanCall_some app inbox henf]
    left
    constructor
    · simp
    · simp [List.countP_cons, isExitEv]
  | none =>
    obtain ⟨d, hd, hok⟩ := runActions_trace app.actions (initS inbox)
    have hd0 : d.countP isExitEv = 0 := countP_zero_of_appEvOk hok
    have hbase : (runActions app.actions (initS inbox)).1.trace.countP isExitEv = 0 := by
      rw [hd, List.countP_append, hd0]
      simp [initS, List.countP_cons, isExitEv]
    have hmem : Ev.enterLifespan ∈ (runActions app.actions (initS inbox)).1.trace := by
      rw [hd]
      exact List.mem_append_left _ (by simp [initS])
    cases hblk : (runActions app.actions (initS inbox)).2 with
    | true =>
      rw [lifespanCall_none_blocked app inbox henf hblk]
      exact Or.inr ⟨hmem, Or.inl ⟨rfl, hbase⟩⟩
    | false =>
      cases ho : app.outcome with
      | ret =>
        rw [lifespanCall_none_ret app inbox henf hblk ho]
        obtain ⟨tail, ht, _, _, hres⟩ := afterApp_spec
          { (runActions app.actions (initS inbox)).1 with
            trace := (runActions app.actions (initS inbox)).1.trace ++ [Ev.appReturn] } ls
        refine Or.inr ⟨?_, ?_⟩
        · rw [ht]
          exact List.mem_append_left _ (List.mem_append_left _ hmem)
        · rcases hres with ⟨hb, hc⟩ | ⟨hb, hc⟩
          · refine Or.inl ⟨hb, ?_⟩
            rw [ht, List.countP_append, List.countP_append, hbase, hc]
            simp [List.countP_cons, isExitEv]
          · refine Or.inr ⟨hb, ?_⟩
            rw [ht, List.countP_append, List.countP_append, hbase, hc]
            simp [List.countP_cons, isExitEv]
      | raise e =>
        rw [lifespanCall_none_raise app inbox henf hblk ho]
        by_cases hcond : startupFailed ∈ (runActions app.actions (initS inbox)).1.send_events ∨
            shutdownFailed ∈ (runActions app.actions (initS inbox)).1.send_events
        · rw [if_pos hcond]
          obtain ⟨tail, ht, _, hc, _, e2, hres⟩ := unwindRaise_spec
            { (runActions app.actions (initS inbox)).1 with
              trace := (runActions app.actions (initS inbox)).1.trace ++ [Ev.appRaised e] } ls e
          refine Or.inr ⟨?_, Or.inr ⟨?_, ?_⟩⟩
          · rw [ht]
            exact List.mem_append_left _ (List.mem_append_left _ hmem)
          · rw [hres]
            simp
          · rw [ht, List.countP_append, List.countP_append, hbase, hc]
            simp [List.countP_cons, isExitEv]
        · rw [if_neg hcond]
          obtain ⟨tail, ht, _, _, hres⟩ := afterApp_spec
            { (runActions app.actions (initS inbox)).1 with
              trace := (runActions app.actions (initS inbox)).1.trace ++ [Ev.appRaised e] } ls
          refine Or.inr ⟨?_, ?_⟩
          · rw [ht]
            exact List.mem_append_left _ (List.mem_append_left _ hmem)
          · rcases hres with ⟨hb, hc⟩ | ⟨hb, hc⟩
            · refine Or.inl ⟨hb, ?_⟩
              rw [ht, List.countP_append, List.countP_append, hbase, hc]
              simp [List.countP_cons, isExitEv]
            · refine Or.inr ⟨hb, ?_⟩
              rw [ht, List.countP_append, List.countP_append, hbase, hc]
              simp [List.countP_cons, isExitEv]

lemma filterMap_wsOf_nil {tail : List Ev} (hw : ∀ t, Ev.wrappedSend t ∉ tail) :
    tail.filterMap wsOf = [] := by
  rw [List.filterMap_eq_nil_iff]
  intro a ha
  cases a
  case wrappedSend t => exact absurd ha (hw t)
  all_goals rfl

lemma ledgerLink_runActions (acts : List AppAction) : ∀ s : RunState,
    s.send_events = s.trace.filterMap wsOf →
    (runActions acts s).1.send_events = (runActions acts s).1.trace.filterMap wsOf := by
  induction acts with
  | nil =>
    intro s h
    simpa [runActions] using h
  | cons a rest ih =>
    intro s h
    cases a with
    | recv =>
      cases hin : s.inbox with
      | nil => simpa [runActions, hin] using h
      | cons m tl =>
        simp only [runActions, hin]
        apply ih
        simp only [List.filterMap_append, h]
        simp [wsOf]
    | send m =>
      by_cases hty : m.type = shutdownComplete
      · simp only [runActions, if_pos hty]
        apply ih
        simp only [List.filterMap_append, h]
        simp [wsOf]
      · simp only [runActions, if_neg hty]
        apply ih
        simp only [List.filterMap_append, h]
        simp [wsOf]

lemma scStop_disj : ∀ e : Ev, isScOut e = true → isExitDone e = false := by
  intro e h
  cases e <;> first | rfl | simp [isScOut] at h

lemma exitStop_disj : ∀ e : Ev, isExitEv e = true → isAppEnd e = false := by
  intro e h
  cases e <;> first | rfl | simp [isExitEv] at h

lemma exitDone_eq {e : Ev} (h : isExitDone e = true) : e = Ev.exitLifespan := by
  cases e <;> first | rfl | simp [isExitDone] at h

lemma ws_from_appEvOk {acts : List AppAction} {t : String} {e : Ev}
    (h : appEvOk acts e) (he : e = Ev.wrappedSend t) :
    ∃ m, AppAction.send m ∈ acts ∧ m.type = t := by
  subst he
  rcases h with ⟨t2, he2⟩ | ⟨m, hm, he2⟩ | ⟨m, hm, _, he2⟩
  · exact absurd he2 (by simp)
  · injection he2 with h3
    exact ⟨m, hm, h3.symm⟩
  · exact absurd he2 (by simp)

lemma ledgerLink_afterApp (s : RunState) (ls : LifespanCM)
    (h : s.send_events = s.trace.filterMap wsOf) :
    (afterApp s ls).state.send_events = (afterApp s ls).state.trace.filterMap wsOf := by
  obtain ⟨tail, ht, hse, hw, _⟩ := afterApp_spec s ls
  rw [ht, hse, List.filterMap_append, filterMap_wsOf_nil hw, List.append_nil, h]

lemma ledgerLink_unwindRaise (s : RunState) (ls : LifespanCM) (e : Exc)
    (h : s.send_events = s.trace.filterMap wsOf) :
    (unwindRaise s ls e).state.send_events = (unwindRaise s ls e).state.trace.filterMap wsOf := by
  obtain ⟨tail, ht, hse, _, hw, _⟩ := unwindRaise_spec s ls e
  rw [ht, hse, List.filterMap_append, filterMap_wsOf_nil hw, List.append_nil, h]

lemma ledgerLink_lifespanCall (app : AppBehavior) (ls : LifespanCM) (inbox : List Message) :
    (lifespanCall app ls inbox).state.send_events =
      (lifespanCall app ls inbox).state.trace.filterMap wsOf := by
  cases henf : ls.enterFault with
  | some e =>
    rw [lifespanCall_some app inbox henf]
    simp [wsOf]
  | none =>
    have hR := ledgerLink_runActions app.actions (initS inbox) (by simp [initS, wsOf])
    cases hblk : (runActions app.actions (initS inbox)).2 with
    | true =>
      rw [lifespanCall_none_blocked app inbox henf hblk]
      exact hR
    | false =>
      cases ho : app.outcome with
      | ret =>
        rw [lifespanCall_none_ret app inbox henf hblk ho]
        apply ledgerLink_afterApp
        show (runActions app.actions (initS inbox)).1.send_events =
          ((runActions app.actions (initS inbox)).1.trace ++ [Ev.appReturn]).filterMap wsOf
        rw [List.filterMap_append, hR]
        simp [wsOf]
      | raise e =>
        rw [lifespanCall_none_raise app inbox henf hblk ho]
        have hS : (runActions app.actions (initS inbox)).1.send_events =
            ((runActions app.actions (initS inbox)).1.trace ++ [Ev.appRaised e]).filterMap wsOf := by
          rw [List.filterMap_append, hR]
          simp [wsOf]
        by_cases hcond : startupFailed ∈ (runActions app.actions (initS inbox)).1.send_events ∨
            shutdownFailed ∈ (runActions app.actions (initS inbox)).1.send_events
        · rw [if_pos hcond]
          exact ledgerLink_unwindRaise _ ls e hS
        · rw [if_neg hcond]
          exact ledgerLink_afterApp _ ls hS

lemma wsProv_lifespanCall (app : AppBehavior) (ls : LifespanCM) (inbox : List Message) :
    ∀ t, Ev.wrappedSend t ∈ (lifespanCall app ls inbox).state.trace →
    ∃ m, AppAction.send m ∈ app.actions ∧ m.type = t := by
  intro t hmem
  obtain ⟨d, hd, hok⟩ := runActions_trace app.actions (initS inbox)
  have hbase : Ev.wrappedSend t ∈ (runActions app.actions (initS inbox)).1.trace →
      ∃ m, AppAction.send m ∈ app.actions ∧ m.type = t := by
    intro hm
    rw [hd] at hm
    rcases List.mem_append.1 hm with hm | hm
    · exact absurd hm (by simp [initS])
    · exact ws_from_appEvOk (hok _ hm) rfl
  cases henf : ls.enterFault with
  | some e =>
    rw [lifespanCall_some app inbox henf] at hmem
    exact absurd hmem (by simp)
  | none =>
    cases hblk : (runActions app.actions (initS inbox)).2 with
    | true =>
      rw [lifespanCall_none_blocked app inbox henf hblk] at hmem
      exact hbase hmem
    | false =>
      cases ho : app.outcome with
      | ret =>
        rw [lifespanCall_none_ret app inbox henf hblk ho] at hmem
        obtain ⟨tail, ht, _, hw, _⟩ := afterApp_spec
          { (runActions app.actions (initS inbox)).1 with
            trace := (runActions app.actions (initS inbox)).1.trace ++ [Ev.appReturn] } ls
        rw [ht] at hmem
        rcases List.mem_append.1 hmem with hm | hm
        · rcases List.mem_append.1 hm with hm | hm
          · exact hbase hm
          · exact absurd hm (by simp)
        · exact absurd hm (hw t)
      | raise e =>
        rw [lifespanCall_none_raise app inbox henf hblk ho] at hmem
        by_cases hcond : startupFailed ∈ (runActions app.actions (initS inbox)).1.send_events ∨
            shutdownFailed ∈ (runActions app.actions (initS inbox)).1.send_events
        · rw [if_pos hcond] at hmem
          obtain ⟨tail, ht, _, _, hw, _⟩ := unwindRaise_spec
            { (runActions app.actions (initS inbox)).1 with
              trace := (runActions app.actions (initS inbox)).1.trace ++ [Ev.appRaised e] } ls e
          rw [ht] at hmem
          rcases List.mem_append.1 hmem with hm | hm
          · rcases List.mem_append.1 hm with hm | hm
            · exact hbase hm
            · exact absurd hm (by simp)
          · exact absurd hm (hw t)
        · rw [if_neg hcond] at hmem
          obtain ⟨tail, ht, _, hw, _⟩ := afterApp_spec
            { (runActions app.actions (initS inbox)).1 with
              trace := (runActions app.actions (initS inbox)).1.trace ++ [Ev.appRaised e] } ls
          rw [ht] at hmem
          rcases List.mem_append.1 hmem with hm | hm
          · rcases List.mem_append.1 hm with hm | hm
            · exact hbase hm
            · exact absurd hm (by simp)
          · exact absurd hm (hw t)

/-- A participant that completes startup, consumes the shutdown request and
then raises without sending any failure message. -/
def shutdownRaiseApp : AppBehavior :=
  { actions := [AppAction.recv, AppAction.send scMsg, AppAction.recv],
    outcome := AppOutcome.raise boomExc }

/-- C1: the claim states that the outbound channel receives exactly one
startup terminal message and, if startup succeeded, exactly one shutdown
terminal message — never two.  The code violates this on the mainline clean
participant run: `cleanup`'s success branch (line 55) sends
`lifespan.shutdown.complete` when the exit stack unwinds, and line 107 sends
it again, so the supervisor receives the shutdown terminal twice.  This
theorem evaluates the embedded code at that failing input. -/
theorem C1_clean_run_sends_two_shutdown_completes :
    (call lifespanType cleanApp noFaultCM stdInbox).result = RunResult.ok ∧
    outMsgs (call lifespanType cleanApp noFaultCM stdInbox).state.trace =
      [scMsg, shcMsg, shcMsg] ∧
    (outMsgs (call lifespanType cleanApp noFaultCM stdInbox).state.trace).countP
      (fun m => m.type == shutdownComplete) = 2 := by
  refine ⟨by decide, by decide, by decide⟩

/-- C2: the claim states that after `lifespan.startup.complete` was observed,
any fault raised by the component during its shutdown phase leads to the
Coordinator running its teardown, sending `lifespan.shutdown.failed` and
re-raising.  The code violates this when the component raises without having
sent a failure message: the `except` clause at lines 81-92 swallows the
fault (its comment claims the app does not support lifespans, although
`lifespan.startup.complete` is in `send_events`), the run completes
normally, no `lifespan.shutdown.failed` is sent and nothing is re-raised.
This theorem evaluates the embedded code at that failing input. -/
theorem C2_shutdown_phase_fault_swallowed :
    (call lifespanType shutdownRaiseApp noFaultCM stdInbox).result = RunResult.ok ∧
    outMsgs (call lifespanType shutdownRaiseApp noFaultCM stdInbox).state.trace =
      [scMsg, shcMsg, shcMsg] ∧
    (∀ m ∈ outMsgs (call lifespanType shutdownRaiseApp noFaultCM stdInbox).state.trace,
      m.type ≠ shutdownFailed) := by
  refine ⟨by decide, by decide, by decide⟩

/-- C8: if entering the caller's resource scope raises a fault `e`, the
outbound channel receives exactly one message, `lifespan.startup.failed`,
whose payload contains the text describing `e`; `e` is re-raised to the
caller; and the owned component is never invoked. -/
theorem C8_resource_setup_fault (e : Exc) (exitF : Option Exc) (app : AppBehavior)
    (inbox : List Message) :
    (call lifespanType app { enterFault := some e, exitFault := exitF } inbox).result =
      RunResult.raised e ∧
    outMsgs (call lifespanType app { enterFault := some e, exitFault := exitF } inbox).state.trace =
      [{ type := startupFailed, message := some (format_exc e) }] ∧
    (∃ pre post, format_exc e = pre ++ e.text ++ post) ∧
    Ev.appCall ∉ (call lifespanType app { enterFault := some e, exitFault := exitF } inbox).state.trace := by
  have hcall : call lifespanType app { enterFault := some e, exitFault := exitF } inbox =
      lifespanCall app { enterFault := some e, exitFault := exitF } inbox := by
    simp [call]
  rw [hcall, lifespanCall_some app inbox rfl]
  refine ⟨rfl, ?_, ⟨tbHeader, "", by simp [format_exc]⟩, ?_⟩
  · simp [outMsgs]
  · simp

/-- C4: no `lifespan.shutdown.complete` delivered to the supervisor's send
channel ever precedes the completed resource teardown — in particular, a
`lifespan.shutdown.complete` sent by the owned component during the app call
is never forwarded (second conjunct: the wrapped send endpoint only emits
outbound messages whose type is not `lifespan.shutdown.complete`), so every
`lifespan.shutdown.complete` reaching the supervisor is originated by the
Coordinator after its own teardown finished. -/
theorem C4_shutdown_complete_owned_by_coordinator (app : AppBehavior) (ls : LifespanCM)
    (inbox : List Message) :
    (∀ (l1 l2 : List Ev) (m : Message),
      (call lifespanType app ls inbox).state.trace = l1 ++ Ev.out m :: l2 →
      m.type = shutdownComplete → Ev.exitLifespan ∈ l1) ∧
    (∀ (s : RunState) (m : Message),
      Ev.out m ∈ (runActions app.actions s).1.trace →
      Ev.out m ∈ s.trace ∨ m.type ≠ shutdownComplete) := by
  have hcall : call lifespanType app ls inbox = lifespanCall app ls inbox := by simp [call]
  rw [hcall]
  constructor
  · intro l1 l2 m heq hty
    have hbad : isScOut (Ev.out m) = true := by simp [isScOut, hty]
    obtain ⟨e2, he2, hstop⟩ := noneBefore_split scStop_disj l1 _
      (noScOut_lifespanCall app ls inbox) (Ev.out m) l2 heq hbad
    rw [exitDone_eq hstop] at he2
    exact he2
  · intro s m hmem
    obtain ⟨d, hd, hok⟩ := runActions_trace app.actions s
    rw [hd] at hmem
    rcases List.mem_append.1 hmem with h | h
    · exact Or.inl h
    · right
      rcases hok _ h with ⟨t, he⟩ | ⟨m2, _, he⟩ | ⟨m2, _, hne, he⟩
      · exact absurd he (by simp)
      · exact absurd he (by simp)
      · injection he with h3
        rw [h3]
        exact hne

/-- Witness for C4 at the clean participant run. -/
theorem C4_witness :
    Ev.exitLifespan ∈ ([Ev.factoryCall, Ev.enterLifespan, Ev.appCall,
      Ev.recv "lifespan.startup", Ev.wrappedSend startupComplete, Ev.out scMsg,
      Ev.recv "lifespan.shutdown", Ev.wrappedSend shutdownComplete, Ev.appReturn,
      Ev.exitLifespan] : List Ev) ∧
    (Ev.out scMsg ∈ (initS stdInbox).trace ∨ scMsg.type ≠ shutdownComplete) :=
  ⟨(C4_shutdown_complete_owned_by_coordinator cleanApp noFaultCM stdInbox).1
      [Ev.factoryCall, Ev.enterLifespan, Ev.appCall, Ev.recv "lifespan.startup",
       Ev.wrappedSend startupComplete, Ev.out scMsg, Ev.recv "lifespan.shutdown",
       Ev.wrappedSend shutdownComplete, Ev.appReturn, Ev.exitLifespan]
      [Ev.out shcMsg] shcMsg (by decide) (by decide),
   (C4_shutdown_complete_owned_by_coordinator cleanApp noFaultCM stdInbox).2
      (initS stdInbox) scMsg (by decide)⟩

/-- C6: for every run of a lifespan-type instance, if the resource scope was
entered then its exit operation is invoked exactly once on every completed
path (first conjunct), never more than once even on suspended runs (second
conjunct), not at all if it was never entered (third conjunct), and only
after the owned component's call — hence any nested component lifecycle —
has ended (fourth conjunct). -/
theorem C6_resource_scope_exit_once (app : AppBehavior) (ls : LifespanCM)
    (inbox : List Message) :
    (Ev.enterLifespan ∈ (call lifespanType app ls inbox).state.trace →
      (call lifespanType app ls inbox).result ≠ RunResult.blocked →
      (call lifespanType app ls inbox).state.trace.countP isExitEv = 1) ∧
    ((call lifespanType app ls inbox).state.trace.countP isExitEv ≤ 1) ∧
    (Ev.enterLifespan ∉ (call lifespanType app ls inbox).state.trace →
      (call lifespanType app ls inbox).state.trace.countP isExitEv = 0) ∧
    (∀ (l1 : List Ev) (e : Ev) (l2 : List Ev),
      (call lifespanType app ls inbox).state.trace = l1 ++ e :: l2 → isExitEv e = true →
      ∃ e2 ∈ l1, isAppEnd e2 = true) := by
  have hcall : call lifespanType app ls inbox = lifespanCall app ls inbox := by simp [call]
  rw [hcall]
  have hcnt := lifespanCall_exitCount app ls inbox
  refine ⟨?_, ?_, ?_, ?_⟩
  · intro hin hb
    rcases hcnt with ⟨hno, _⟩ | ⟨_, hres⟩
    · exact absurd hin hno
    · rcases hres with ⟨hb2, _⟩ | ⟨_, hc⟩
      · exact absurd hb2 hb
      · exact hc
  · rcases hcnt with ⟨_, h0⟩ | ⟨_, hres⟩
    · simp [h0]
    · rcases hres with ⟨_, h0⟩ | ⟨_, h1⟩
      · simp [h0]
      · simp [h1]
  · intro hnot
    rcases hcnt with ⟨_, h0⟩ | ⟨hin, _⟩
    · exact h0
    · exact absurd hin hnot
  · intro l1 e l2 heq hbad
    exact noneBefore_split exitStop_disj l1 _
      (noAppEndExit_lifespanCall app ls inbox) e l2 heq hbad

/-- Witness for C6: exit invoked exactly once on the clean run, exit events
only after the app ended, and no exit at all when enter raised. -/
theorem C6_witness :
    (call lifespanType cleanApp noFaultCM stdInbox).state.trace.countP isExitEv = 1 ∧
    (∃ e2 ∈ ([Ev.factoryCall, Ev.enterLifespan, Ev.appCall, Ev.recv "lifespan.startup",
      Ev.wrappedSend startupComplete, Ev.out scMsg, Ev.recv "lifespan.shutdown",
      Ev.wrappedSend shutdownComplete, Ev.appReturn] : List Ev), isAppEnd e2 = true) ∧
    (call lifespanType cleanApp
      { enterFault := some boomExc, exitFault := none } stdInbox).state.trace.countP isExitEv = 0 :=
  ⟨(C6_resource_scope_exit_once cleanApp noFaultCM stdInbox).1 (by decide) (by decide),
   (C6_resource_scope_exit_once cleanApp noFaultCM stdInbox).2.2.2
      [Ev.factoryCall, Ev.enterLifespan, Ev.appCall, Ev.recv "lifespan.startup",
       Ev.wrappedSend startupComplete, Ev.out scMsg, Ev.recv "lifespan.shutdown",
       Ev.wrappedSend shutdownComplete, Ev.appReturn]
      Ev.exitLifespan [Ev.out shcMsg, Ev.out shcMsg] (by decide) (by decide),
   (C6_resource_scope_exit_once cleanApp
      { enterFault := some boomExc, exitFault := none } stdInbox).2.2.1 (by decide)⟩

/-- C10: the `send_events` ledger is exactly the list of message types the
owned component passed through the wrapped send endpoint (first conjunct:
the ledger equals the wrapped-send projection of the trace, so suppressed
`lifespan.shutdown.complete` messages are recorded and
Coordinator-originated outbound messages never are), and every recorded
type comes from a send action of the component (second conjunct). -/
theorem C10_send_events_ledger (app : AppBehavior) (ls : LifespanCM) (inbox : List Message) :
    ((call lifespanType app ls inbox).state.send_events =
      (call lifespanType app ls inbox).state.trace.filterMap wsOf) ∧
    (∀ t, Ev.wrappedSend t ∈ (call lifespanType app ls inbox).state.trace →
      ∃ m, AppAction.send m ∈ app.actions ∧ m.type = t) := by
  have hcall : call lifespanType app ls inbox = lifespanCall app ls inbox := by simp [call]
  rw [hcall]
  exact ⟨ledgerLink_lifespanCall app ls inbox, wsProv_lifespanCall app ls inbox⟩

/-- Witness for C10 at the clean participant run. -/
theorem C10_witness :
    ∃ m, AppAction.send m ∈ cleanApp.actions ∧ m.type = startupComplete :=
  (C10_send_events_ledger cleanApp noFaultCM stdInbox).2 startupComplete (by decide)

/-- The `lifespan.startup.failed` message a failing component sends itself. -/
def sfAppMsg : Message := { type := startupFailed, message := some "component failure" }

/-- A component that sends `lifespan.startup.failed` and then raises, before
any `lifespan.startup.complete`. -/
def c5App : AppBehavior :=
  { actions := [AppAction.recv, AppAction.send sfAppMsg],
    outcome := AppOutcome.raise boomExc }

/-- C5 counterexample: the claim states the Coordinator forwards the
component-sent `lifespan.startup.failed` and sends no additional outbound
message of its own.  At this input the code forwards the component's message
and then `cleanup` (lines 45-53) sends a second `lifespan.startup.failed`
of its own, so the outbound channel carries two messages, not one. -/
theorem C5_counterexample :
    outMsgs (call lifespanType c5App noFaultCM [startupReq]).state.trace =
      [sfAppMsg, { type := startupFailed, message := some (format_exc boomExc) }] ∧
    ¬ outMsgs (call lifespanType c5App noFaultCM [startupReq]).state.trace = [sfAppMsg] ∧
    (outMsgs (call lifespanType c5App noFaultCM [startupReq]).state.trace).countP
      (fun m => m.type == startupFailed) = 2 := by
  refine ⟨by decide, by decide, by decide⟩

lemma sentTypes_mem : ∀ {acts : List AppAction} {t : String}, t ∈ sentTypes acts →
    ∃ m, AppAction.send m ∈ acts ∧ m.type = t := by
  intro acts
  induction acts with
  | nil =>
    intro t ht
    simp [sentTypes] at ht
  | cons a rest ih =>
    intro t ht
    cases a with
    | recv =>
      simp only [sentTypes] at ht
      obtain ⟨m, hm, h⟩ := ih ht
      exact ⟨m, List.mem_cons_of_mem _ hm, h⟩
    | send m =>
      simp only [sentTypes] at ht
      rcases List.mem_cons.1 ht with rfl | ht
      · exact ⟨m, List.mem_cons_self _ _, rfl⟩
      · obtain ⟨m2, hm2, h⟩ := ih ht
        exact ⟨m2, List.mem_cons_of_mem _ hm2, h⟩

/-- C5 amended: when the component sent `lifespan.startup.failed` (and never
`lifespan.startup.complete`) and then raised `e`, the Coordinator forwards
the component's message, runs its teardown, additionally sends one
`lifespan.startup.failed` of its own carrying the fault text, and re-raises
`e`. -/
theorem C5_component_startup_failed_then_raise (acts : List AppAction) (e : Exc)
    (inbox : List Message)
    (hnb : countRecv acts ≤ inbox.length)
    (hsf : startupFailed ∈ sentTypes acts)
    (hsc : startupComplete ∉ sentTypes acts) :
    (call lifespanType { actions := acts, outcome := AppOutcome.raise e } noFaultCM inbox).result =
      RunResult.raised e ∧
    (∀ m, AppAction.send m ∈ acts → m.type = startupFailed →
      Ev.out m ∈ (call lifespanType { actions := acts, outcome := AppOutcome.raise e }
        noFaultCM inbox).state.trace) ∧
    (∃ d, (call lifespanType { actions := acts, outcome := AppOutcome.raise e }
        noFaultCM inbox).state.trace =
      ([Ev.factoryCall, Ev.enterLifespan, Ev.appCall] ++ d) ++
      [Ev.appRaised e, Ev.exitLifespan,
       Ev.out { type := startupFailed, message := some (format_exc e) }]) := by
  have hcall : call lifespanType { actions := acts, outcome := AppOutcome.raise e } noFaultCM inbox =
      lifespanCall { actions := acts, outcome := AppOutcome.raise e } noFaultCM inbox := by
    simp [call]
  have hk : countRecv acts ≤ (initS inbox).inbox.length := by simpa [initS] using hnb
  have hblk := (runActions_notBlocked acts (initS inbox) hk).1
  have hse : (runActions acts (initS inbox)).1.send_events = sentTypes acts := by
    simpa [initS] using runActions_send_events acts (initS inbox) hk
  have hcond : startupFailed ∈ (runActions acts (initS inbox)).1.send_events ∨
      shutdownFailed ∈ (runActions acts (initS inbox)).1.send_events := by
    left
    rw [hse]
    exact hsf
  have hfm : failedMsg { (runActions acts (initS inbox)).1 with
      trace := (runActions acts (initS inbox)).1.trace ++ [Ev.appRaised e] } e =
      { type := startupFailed, message := some (format_exc e) } := by
    unfold failedMsg
    rw [if_neg]
    show startupComplete ∉ (runActions acts (initS inbox)).1.send_events
    rw [hse]
    exact hsc
  rw [hcall, lifespanCall_none_raise { actions := acts, outcome := AppOutcome.raise e }
    inbox rfl hblk rfl, if_pos hcond]
  obtain ⟨d, hd, hok⟩ := runActions_trace acts (initS inbox)
  refine ⟨?_, ?_, ⟨d, ?_⟩⟩
  · simp [unwindRaise, noFaultCM]
  · intro m hm hty
    have hout : Ev.out m ∈ (runActions acts (initS inbox)).1.trace := by
      refine runActions_forwards acts (initS inbox) hk m hm ?_
      rw [hty]
      decide
    simp only [unwindRaise, noFaultCM]
    exact List.mem_append_left _ (List.mem_append_left _ hout)
  · simp only [unwindRaise, noFaultCM, hfm]
    rw [hd]
    simp [initS]

/-- Witness for C5 at a concrete component. -/
theorem C5_witness :
    (call lifespanType c5App noFaultCM [startupReq]).result = RunResult.raised boomExc :=
  (C5_component_startup_failed_then_raise [AppAction.recv, AppAction.send sfAppMsg]
    boomExc [startupReq] (by decide) (by decide) (by decide)).1

/-- C7 counterexample: the claim asserts the full observed outbound order on
the clean participant run ends with the Coordinator's single
`lifespan.shutdown.complete`, i.e. the outbound sequence is exactly
`startup.complete` then one `shutdown.complete`.  The code delivers the
final message twice, so the claimed exact sequence is not what is
observed. -/
theorem C7_counterexample :
    outMsgs (call lifespanType cleanApp noFaultCM stdInbox).state.trace =
      [scMsg, shcMsg, shcMsg] ∧
    ¬ outMsgs (call lifespanType cleanApp noFaultCM stdInbox).state.trace =
      [scMsg, shcMsg] := by
  refine ⟨by decide, by decide⟩

/-- C7 amended: in every run the completed resource teardown strictly
precedes any `lifespan.shutdown.complete` handed to the supervisor's send
channel (first conjunct), and on the canonical clean scenario the observed
order is: resource setup, component startup (its `startup.complete`
forwarded), supervisor shutdown request consumed, component shutdown (its
`shutdown.complete` suppressed), resource teardown, then the Coordinator's
`lifespan.shutdown.complete` — emitted twice (second conjunct gives the
exact trace). -/
theorem C7_teardown_before_shutdown_complete (app : AppBehavior) (ls : LifespanCM)
    (inbox : List Message) :
    (∀ (l1 l2 : List Ev) (m : Message),
      (call lifespanType app ls inbox).state.trace = l1 ++ Ev.out m :: l2 →
      m.type = shutdownComplete → Ev.exitLifespan ∈ l1) ∧
    ((call lifespanType cleanApp noFaultCM stdInbox).state.trace =
      [Ev.factoryCall, Ev.enterLifespan, Ev.appCall, Ev.recv "lifespan.startup",
       Ev.wrappedSend startupComplete, Ev.out scMsg, Ev.recv "lifespan.shutdown",
       Ev.wrappedSend shutdownComplete, Ev.appReturn, Ev.exitLifespan,
       Ev.out shcMsg, Ev.out shcMsg]) := by
  have hcall : call lifespanType app ls inbox = lifespanCall app ls inbox := by simp [call]
  rw [hcall]
  constructor
  · intro l1 l2 m heq hty
    have hbad : isScOut (Ev.out m) = true := by simp [isScOut, hty]
    obtain ⟨e2, he2, hstop⟩ := noneBefore_split scStop_disj l1 _
      (noScOut_lifespanCall app ls inbox) (Ev.out m) l2 heq hbad
    rw [exitDone_eq hstop] at he2
    exact he2
  · decide

/-- Witness for C7: the strict ordering applied at the second (duplicated)
final emission of the clean run. -/
theorem C7_witness :
    Ev.exitLifespan ∈ ([Ev.factoryCall, Ev.enterLifespan, Ev.appCall,
      Ev.recv "lifespan.startup", Ev.wrappedSend startupComplete, Ev.out scMsg,
      Ev.recv "lifespan.shutdown", Ev.wrappedSend shutdownComplete, Ev.appReturn,
      Ev.exitLifespan, Ev.out shcMsg] : List Ev) :=
  (C7_teardown_before_shutdown_complete cleanApp noFaultCM stdInbox).1
    [Ev.factoryCall, Ev.enterLifespan, Ev.appCall, Ev.recv "lifespan.startup",
     Ev.wrappedSend startupComplete, Ev.out scMsg, Ev.recv "lifespan.shutdown",
     Ev.wrappedSend shutdownComplete, Ev.appReturn, Ev.exitLifespan, Ev.out shcMsg]
    [] shcMsg (by decide) (by decide)

lemma mem_outMsgs {tr : List Ev} {m : Message} : m ∈ outMsgs tr ↔ Ev.out m ∈ tr := by
  unfold outMsgs
  rw [List.mem_filterMap]
  constructor
  · rintro ⟨e, he, hfe⟩
    cases e
    case out m2 =>
      simp at hfe
      rw [hfe] at he
      exact he
    all_goals simp at hfe
  · intro h
    exact ⟨Ev.out m, h, rfl⟩

lemma outMsgs_append (a b : List Ev) : outMsgs (a ++ b) = outMsgs a ++ outMsgs b := by
  simp [outMsgs]

lemma afterApp_impersonate_blocked (s : RunState) (ls : LifespanCM)
    (h1 : startupFailed ∉ s.send_events) (h2 : startupComplete ∉ s.send_events)
    (m1 : Message) (hin : s.inbox = [m1]) :
    afterApp s ls =
      { result := RunResult.blocked,
        state := { s with inbox := [], trace := s.trace ++ [Ev.recv m1.type, Ev.out scMsg] } } := by
  simp [afterApp, h1, h2, hin]

lemma afterApp_impersonate_run (s : RunState) (ls : LifespanCM)
    (h1 : startupFailed ∉ s.send_events) (h2 : startupComplete ∉ s.send_events)
    (m1 m2 : Message) (rest : List Message) (hin : s.inbox = m1 :: m2 :: rest) :
    afterApp s ls =
      finishNormally
        { s with inbox := rest,
                 trace := (s.trace ++ [Ev.recv m1.type, Ev.out scMsg]) ++ [Ev.recv m2.type] } ls := by
  simp [afterApp, h1, h2, hin]

lemma finishNormally_none (s : RunState) (ls : LifespanCM) (hef : ls.exitFault = none) :
    finishNormally s ls =
      { result := RunResult.ok,
        state := { s with trace := s.trace ++ [Ev.exitLifespan, Ev.out shcMsg, Ev.out shcMsg] } } := by
  simp [finishNormally, hef]

lemma countSC_outs_zero {acts : List AppAction} {d : List Ev}
    (hok : ∀ e ∈ d, appEvOk acts e)
    (h1 : ∀ m, AppAction.send m ∈ acts → m.type ≠ startupComplete) :
    (outMsgs d).countP (fun m => m.type == startupComplete) = 0 := by
  rw [List.countP_eq_zero]
  intro m hm
  rw [mem_outMsgs] at hm
  rcases hok _ hm with ⟨t, he⟩ | ⟨m2, _, he⟩ | ⟨m2, hm2, _, he⟩
  · exact absurd he (by simp)
  · exact absurd he (by simp)
  · injection he with h3
    rw [h3]
    simp [h1 m2 hm2]

lemma isExitEv_appEndMark (outc : AppOutcome) : isExitEv (appEndMark outc) = false := by
  cases outc <;> rfl

lemma outMsgs_appEndMark (outc : AppOutcome) : outMsgs [appEndMark outc] = [] := by
  cases outc <;> rfl

/-- C3: for every run in which the owned component sends no
`lifespan.startup.complete` and no failure message (its other sends and
receives are arbitrary, and it may return or raise), the Coordinator
swallows any fault, consumes one further inbound message, sends exactly one
`lifespan.startup.complete` itself, then blocks on a second inbound receive
before any teardown (first conjunct: supervisor supplies exactly one more
message — the run suspends with no exit event after consuming it and
emitting the one `startup.complete`); when the supervisor also supplies the
shutdown request, the run completes: receive, `startup.complete`, second
receive, and only then the teardown (second conjunct gives the full
trace). -/
theorem C3_nonparticipant_impersonation (acts : List AppAction) (outc : AppOutcome)
    (inbox : List Message)
    (h1 : ∀ m, AppAction.send m ∈ acts →
      m.type ≠ startupComplete ∧ m.type ≠ startupFailed ∧ m.type ≠ shutdownFailed) :
    (∀ m1, inbox.drop (countRecv acts) = [m1] →
      (call lifespanType { actions := acts, outcome := outc } noFaultCM inbox).result =
        RunResult.blocked ∧
      (call lifespanType { actions := acts, outcome := outc }
        noFaultCM inbox).state.trace.countP isExitEv = 0 ∧
      (outMsgs (call lifespanType { actions := acts, outcome := outc }
        noFaultCM inbox).state.trace).countP (fun m => m.type == startupComplete) = 1 ∧
      (∃ d, (call lifespanType { actions := acts, outcome := outc }
        noFaultCM inbox).state.trace =
        (([Ev.factoryCall, Ev.enterLifespan, Ev.appCall] ++ d) ++ [appEndMark outc]) ++
        [Ev.recv m1.type, Ev.out scMsg])) ∧
    (∀ m1 m2 rest, inbox.drop (countRecv acts) = m1 :: m2 :: rest →
      (call lifespanType { actions := acts, outcome := outc } noFaultCM inbox).result =
        RunResult.ok ∧
      (outMsgs (call lifespanType { actions := acts, outcome := outc }
        noFaultCM inbox).state.trace).countP (fun m => m.type == startupComplete) = 1 ∧
      (∃ d, (call lifespanType { actions := acts, outcome := outc }
        noFaultCM inbox).state.trace =
        (([Ev.factoryCall, Ev.enterLifespan, Ev.appCall] ++ d) ++ [appEndMark outc]) ++
        [Ev.recv m1.type, Ev.out scMsg, Ev.recv m2.type,
         Ev.exitLifespan, Ev.out shcMsg, Ev.out shcMsg])) := by
  have hcall : call lifespanType { actions := acts, outcome := outc } noFaultCM inbox =
      lifespanCall { actions := acts, outcome := outc } noFaultCM inbox := by
    simp [call]
  have hbody : ∀ (hk : countRecv acts ≤ inbox.length),
      lifespanCall { actions := acts, outcome := outc } noFaultCM inbox =
        afterApp { (runActions acts (initS inbox)).1 with
          trace := (runActions acts (initS inbox)).1.trace ++ [appEndMark outc] } noFaultCM := by
    intro hk
    have hk2 : countRecv acts ≤ (initS inbox).inbox.length := by simpa [initS] using hk
    have hblk := (runActions_notBlocked acts (initS inbox) hk2).1
    have hse : (runActions acts (initS inbox)).1.send_events = sentTypes acts := by
      simpa [initS] using runActions_send_events acts (initS inbox) hk2
    cases outc with
    | ret =>
      exact lifespanCall_none_ret { actions := acts, outcome := AppOutcome.ret }
        inbox rfl hblk rfl
    | raise e =>
      have hcond : ¬(startupFailed ∈ (runActions acts (initS inbox)).1.send_events ∨
          shutdownFailed ∈ (runActions acts (initS inbox)).1.send_events) := by
        intro h
        rcases h with h | h
        · rw [hse] at h
          obtain ⟨m, hm, hty⟩ := sentTypes_mem h
          exact (h1 m hm).2.1 hty
        · rw [hse] at h
          obtain ⟨m, hm, hty⟩ := sentTypes_mem h
          exact (h1 m hm).2.2 hty
      rw [lifespanCall_none_raise { actions := acts, outcome := AppOutcome.raise e }
        inbox rfl hblk rfl, if_neg hcond]
      rfl
  constructor
  · intro m1 heq
    have hk : countRecv acts ≤ inbox.length := by
      have := congrArg List.length heq
      simp [List.length_drop] at this
      omega
    have hk2 : countRecv acts ≤ (initS inbox).inbox.length := by simpa [initS] using hk
    have hse : (runActions acts (initS inbox)).1.send_events = sentTypes acts := by
      simpa [initS] using runActions_send_events acts (initS inbox) hk2
    have hsf : startupFailed ∉ (runActions acts (initS inbox)).1.send_events := by
      rw [hse]
      intro h
      obtain ⟨m, hm, hty⟩ := sentTypes_mem h
      exact (h1 m hm).2.1 hty
    have hsc : startupComplete ∉ (runActions acts (initS inbox)).1.send_events := by
      rw [hse]
      intro h
      obtain ⟨m, hm, hty⟩ := sentTypes_mem h
      exact (h1 m hm).1 hty
    have hinb : (runActions acts (initS inbox)).1.inbox = [m1] := by
      have := (runActions_notBlocked acts (initS inbox) hk2).2
      rw [this]
      simpa [initS] using heq
    rw [hcall, hbody hk, afterApp_impersonate_blocked
      { (runActions acts (initS inbox)).1 with
        trace := (runActions acts (initS inbox)).1.trace ++ [appEndMark outc] }
      noFaultCM hsf hsc m1 hinb]
    obtain ⟨d, hd, hok⟩ := runActions_trace acts (initS inbox)
    have htr : ((runActions acts (initS inbox)).1.trace ++ [appEndMark outc]) ++
        [Ev.recv m1.type, Ev.out scMsg] =
        (([Ev.factoryCall, Ev.enterLifespan, Ev.appCall] ++ d) ++ [appEndMark outc]) ++
        [Ev.recv m1.type, Ev.out scMsg] := by
      rw [hd]
      simp [initS]
    refine ⟨rfl, ?_, ?_, ⟨d, htr⟩⟩
    · show (((runActions acts (initS inbox)).1.trace ++ [appEndMark outc]) ++
        [Ev.recv m1.type, Ev.out scMsg]).countP isExitEv = 0
      rw [htr]
      rw [List.countP_append, List.countP_append, List.countP_append]
      rw [countP_zero_of_appEvOk hok]
      cases outc <;> simp [List.countP_cons, isExitEv, appEndMark]
    · show (outMsgs (((runActions acts (initS inbox)).1.trace ++ [appEndMark outc]) ++
        [Ev.recv m1.type, Ev.out scMsg])).countP (fun m => m.type == startupComplete) = 1
      rw [htr]
      rw [outMsgs_append, outMsgs_append, outMsgs_append]
      rw [List.countP_append, List.countP_append, List.countP_append]
      rw [countSC_outs_zero hok (fun m hm => (h1 m hm).1), outMsgs_appEndMark]
      simp [outMsgs, scMsg, startupComplete]
  · intro m1 m2 rest heq
    have hk : countRecv acts ≤ inbox.length := by
      have := congrArg List.length heq
      simp [List.length_drop] at this
      omega
    have hk2 : countRecv acts ≤ (initS inbox).inbox.length := by simpa [initS] using hk
    have hse : (runActions acts (initS inbox)).1.send_events = sentTypes acts := by
      simpa [initS] using runActions_send_events acts (initS inbox) hk2
    have hsf : startupFailed ∉ (runActions acts (initS inbox)).1.send_events := by
      rw [hse]
      intro h
      obtain ⟨m, hm, hty⟩ := sentTypes_mem h
      exact (h1 m hm).2.1 hty
    have hsc : startupComplete ∉ (runActions acts (initS inbox)).1.send_events := by
      rw [hse]
      intro h
      obtain ⟨m, hm, hty⟩ := sentTypes_mem h
      exact (h1 m hm).1 hty
    have hinb : (runActions acts (initS inbox)).1.inbox = m1 :: m2 :: rest := by
      have := (runActions_notBlocked acts (initS inbox) hk2).2
      rw [this]
      simpa [initS] using heq
    rw [hcall, hbody hk, afterApp_impersonate_run
      { (runActions acts (initS inbox)).1 with
        trace := (runActions acts (initS inbox)).1.trace ++ [appEndMark outc] }
      noFaultCM hsf hsc m1 m2 rest hinb,
        finishNormally_none _ noFaultCM rfl]
    obtain ⟨d, hd, hok⟩ := runActions_trace acts (initS inbox)
    have htr : ((((runActions acts (initS inbox)).1.trace ++ [appEndMark outc]) ++
        [Ev.recv m1.type, Ev.out scMsg]) ++ [Ev.recv m2.type]) ++
        [Ev.exitLifespan, Ev.out shcMsg, Ev.out shcMsg] =
        (([Ev.factoryCall, Ev.enterLifespan, Ev.appCall] ++ d) ++ [appEndMark outc]) ++
        [Ev.recv m1.type, Ev.out scMsg, Ev.recv m2.type,
         Ev.exitLifespan, Ev.out shcMsg, Ev.out shcMsg] := by
      rw [hd]
      simp [initS]
    refine ⟨rfl, ?_, ⟨d, htr⟩⟩
    show (outMsgs (((((runActions acts (initS inbox)).1.trace ++ [appEndMark outc]) ++
        [Ev.recv m1.type, Ev.out scMsg]) ++ [Ev.recv m2.type]) ++
        [Ev.exitLifespan, Ev.out shcMsg, Ev.out shcMsg])).countP
        (fun m => m.type == startupComplete) = 1
    rw [htr]
    rw [outMsgs_append, outMsgs_append, outMsgs_append]
    rw [List.countP_append, List.countP_append, List.countP_append]
    rw [countSC_outs_zero hok (fun m hm => (h1 m hm).1), outMsgs_appEndMark]
    simp [outMsgs, scMsg, shcMsg, startupComplete, shutdownComplete]

/-- Witness for C3 at a component that does nothing, with the full
supervisor handshake. -/
theorem C3_witness :
    (call lifespanType { actions := [], outcome := AppOutcome.ret }
      noFaultCM stdInbox).result = RunResult.ok :=
  ((C3_nonparticipant_impersonation [] AppOutcome.ret stdInbox (by simp)).2
    startupReq shutdownReq [] (by decide)).1

lemma isExitEv_of_isAppEnd {e : Ev} (h : isAppEnd e = true) : isExitEv e = false := by
  cases e <;> first | rfl | simp [isAppEnd] at h

lemma runAppDirect_spec (app : AppBehavior) (inbox : List Message) : ∃ tail,
    (runAppDirect app inbox).state.trace = Ev.appCall :: tail ∧
    (∀ e ∈ tail, (∃ t, e = Ev.recv t) ∨ (∃ m, e = Ev.out m) ∨ isAppEnd e = true) ∧
    (runAppDirect app inbox).state.send_events = [] ∧
    (runAppDirect app inbox).state.rcv_events = [] := by
  obtain ⟨d, hd, hok⟩ := runActionsDirect_trace app.actions
    { trace := [Ev.appCall], send_events := [], rcv_events := [], inbox := inbox }
  have hled := runActionsDirect_ledgers app.actions
    { trace := [Ev.appCall], send_events := [], rcv_events := [], inbox := inbox }
  have hok2 : ∀ e ∈ d, (∃ t, e = Ev.recv t) ∨ (∃ m, e = Ev.out m) ∨ isAppEnd e = true := by
    intro e he
    rcases hok e he with h | ⟨m, _, hm⟩
    · exact Or.inl h
    · exact Or.inr (Or.inl ⟨m, hm⟩)
  cases hb : (runActionsDirect app.actions
      { trace := [Ev.appCall], send_events := [], rcv_events := [], inbox := inbox }).2 with
  | true =>
    refine ⟨d, ?_, hok2, ?_, ?_⟩ <;> simp [runAppDirect, hb, hd, hled.1, hled.2]
  | false =>
    cases ho : app.outcome with
    | ret =>
      refine ⟨d ++ [Ev.appReturn], ?_, ?_, ?_, ?_⟩
      · simp [runAppDirect, hb, ho, hd]
      · intro e he
        rcases List.mem_append.1 he with he | he
        · exact hok2 e he
        · rcases List.mem_cons.1 he with rfl | he
          · exact Or.inr (Or.inr rfl)
          · simp at he
      · simp [runAppDirect, hb, ho, hled.1]
      · simp [runAppDirect, hb, ho, hled.2]
    | raise e =>
      refine ⟨d ++ [Ev.appRaised e], ?_, ?_, ?_, ?_⟩
      · simp [runAppDirect, hb, ho, hd]
      · intro e2 he2
        rcases List.mem_append.1 he2 with he2 | he2
        · exact hok2 e2 he2
        · rcases List.mem_cons.1 he2 with rfl | he2
          · exact Or.inr (Or.inr rfl)
          · simp at he2
      · simp [runAppDirect, hb, ho, hled.1]
      · simp [runAppDirect, hb, ho, hled.2]

/-- C9: for every invocation whose scope type is not `lifespan`, both
variants of the middleware reduce to a single direct invocation of the
wrapped app with the original channels (first two conjuncts), during which
the app is called exactly once, the lifespan factory is never called, no
scope is entered or exited, no message is intercepted or recorded (ledgers
stay empty, no wrapped-send events), every message the app sends reaches
the real outbound channel unmodified and in order, nothing else is sent,
and the app's outcome (return or raise) is the middleware's outcome. -/
theorem C9_non_lifespan_passthrough (st : String) (app : AppBehavior) (ls : LifespanCM)
    (inbox : List Message) (hst : st ≠ lifespanType) :
    call st app ls inbox = runAppDirect app inbox ∧
    callOld st app ls inbox = runAppDirect app inbox ∧
    (runAppDirect app inbox).state.trace.count Ev.appCall = 1 ∧
    Ev.factoryCall ∉ (runAppDirect app inbox).state.trace ∧
    Ev.enterLifespan ∉ (runAppDirect app inbox).state.trace ∧
    (runAppDirect app inbox).state.trace.countP isExitEv = 0 ∧
    (∀ t, Ev.wrappedSend t ∉ (runAppDirect app inbox).state.trace) ∧
    (runAppDirect app inbox).state.send_events = [] ∧
    (runAppDirect app inbox).state.rcv_events = [] ∧
    (countRecv app.actions ≤ inbox.length →
      outMsgs (runAppDirect app inbox).state.trace = sentMsgs app.actions ∧
      (app.outcome = AppOutcome.ret → (runAppDirect app inbox).result = RunResult.ok) ∧
      (∀ e, app.outcome = AppOutcome.raise e →
        (runAppDirect app inbox).result = RunResult.raised e)) := by
  obtain ⟨tail, htr, hch, hse, hrc⟩ := runAppDirect_spec app inbox
  have hnotmem : ∀ e2 : Ev, (∀ t, e2 ≠ Ev.recv t) → (∀ m, e2 ≠ Ev.out m) →
      isAppEnd e2 = false → e2 ∉ tail := by
    intro e2 hr hm ha he
    rcases hch e2 he with ⟨t, h⟩ | ⟨m, h⟩ | h
    · exact hr t h
    · exact hm m h
    · rw [ha] at h
      exact absurd h (by simp)
  refine ⟨by simp [call, hst], by simp [callOld, hst], ?_, ?_, ?_, ?_, ?_, hse, hrc, ?_⟩
  · rw [htr]
    have : Ev.appCall ∉ tail :=
      hnotmem Ev.appCall (by intro t h; exact absurd h (by simp))
        (by intro m h; exact absurd h (by simp)) rfl
    simp [List.count_cons, List.count_eq_zero.mpr this]
  · rw [htr]
    intro h
    rcases List.mem_cons.1 h with h | h
    · exact absurd h (by simp)
    · exact hnotmem Ev.factoryCall (by intro t h2; exact absurd h2 (by simp))
        (by intro m h2; exact absurd h2 (by simp)) rfl h
  · rw [htr]
    intro h
    rcases List.mem_cons.1 h with h | h
    · exact absurd h (by simp)
    · exact hnotmem Ev.enterLifespan (by intro t h2; exact absurd h2 (by simp))
        (by intro m h2; exact absurd h2 (by simp)) rfl h
  · rw [htr]
    have hz : tail.countP isExitEv = 0 := by
      rw [List.countP_eq_zero]
      intro e2 he2
      rcases hch e2 he2 with ⟨t, h⟩ | ⟨m, h⟩ | h
      · rw [h]
        simp [isExitEv]
      · rw [h]
        simp [isExitEv]
      · simp [isExitEv_of_isAppEnd h]
    simp [List.countP_cons, isExitEv, hz]
  · intro t
    rw [htr]
    intro h
    rcases List.mem_cons.1 h with h | h
    · exact absurd h (by simp)
    · exact hnotmem (Ev.wrappedSend t) (by intro t2 h2; exact absurd h2 (by simp))
        (by intro m h2; exact absurd h2 (by simp)) rfl h
  · intro hk
    have hb := runActionsDirect_result app.actions
      { trace := [Ev.appCall], send_events := [], rcv_events := [], inbox := inbox } hk
    have houts := (runActionsDirect_outs app.actions
      { trace := [Ev.appCall], send_events := [], rcv_events := [], inbox := inbox } hk).2
    refine ⟨?_, ?_, ?_⟩
    · cases ho : app.outcome with
      | ret =>
        have : (runAppDirect app inbox).state.trace =
            (runActionsDirect app.actions { trace := [Ev.appCall], send_events := [], rcv_events := [], inbox := inbox }).1.trace ++ [Ev.appReturn] := by
          simp [runAppDirect, hb, ho]
        rw [this, outMsgs_append, houts]
        simp [outMsgs]
      | raise e =>
        have : (runAppDirect app inbox).state.trace =
            (runActionsDirect app.actions { trace := [Ev.appCall], send_events := [], rcv_events := [], inbox := inbox }).1.trace ++ [Ev.appRaised e] := by
          simp [runAppDirect, hb, ho]
        rw [this, outMsgs_append, houts]
        simp [outMsgs]
    · intro ho
      simp [runAppDirect, hb, ho]
    · intro e ho
      simp [runAppDirect, hb, ho]

/-- Witness for C9 at a concrete http-scope invocation. -/
theorem C9_witness :
    call "http" cleanApp noFaultCM stdInbox = runAppDirect cleanApp stdInbox ∧
    outMsgs (runAppDirect cleanApp stdInbox).state.trace = sentMsgs cleanApp.actions :=
  ⟨(C9_non_lifespan_passthrough "http" cleanApp noFaultCM stdInbox (by decide)).1,
   ((C9_non_lifespan_passthrough "http" cleanApp noFaultCM stdInbox (by decide)).2.2.2.2.2.2.2.2.2
     (by decide)).1⟩
